import Mathlib

/-!
Verification of the grid layer in `landlab/model_grid.py`.

The Python module manages 2-D grids for numerical models: it builds the
node/link/cell topology of a raster grid, derives the subset of *active*
links from per-node boundary-status codes, and provides the differential
operators (gradient at active links, flux divergence at nodes) used by
client models.  This file gives a shallow embedding of those routines:
numpy arrays become Lean lists (or index functions), boundary-status codes
become natural numbers, floating-point values become rationals, and the
numpy "index -1 wraps to the last element" gather trick is modelled
explicitly by `pyget`.  Each routine is translated from the source; the two
helpers whose bodies live in `landlab.utils.structured_grid` (outside this
module) are modelled from the specification and the doctests that pin their
output, and are marked as such in their doc strings.
-/

/-- Boundary-status code for interior (active, non-boundary) nodes
(model_grid.py line 29). -/
def INTERIOR_NODE : ℕ := 0

/-- Boundary-status code for fixed-value boundary nodes (line 30). -/
def FIXED_VALUE_BOUNDARY : ℕ := 1

/-- Boundary-status code for fixed-gradient boundary nodes (line 31). -/
def FIXED_GRADIENT_BOUNDARY : ℕ := 2

/-- Boundary-status code for cell-tracking boundary nodes (line 32). -/
def TRACKS_CELL_BOUNDARY : ℕ := 3

/-- Boundary-status code for inactive (closed / no-flux) boundary nodes
(line 33). -/
def INACTIVE_BOUNDARY : ℕ := 4

/-- Python/numpy 1-D indexing of a list by a possibly-negative integer: a
negative index counts from the end, so `a[-1]` reads the last element.
This models the gather trick of model_grid.py lines 2155-2161, where the
inlink/outlink matrices hold `-1` for "no link" and the flux array carries
one extra trailing slot that always holds zero. -/
def pyget (a : List ℚ) (j : ℤ) : ℚ :=
  if 0 ≤ j then a.getD j.toNat 0 else a.getD (a.length - (-j).toNat) 0

/-- Python `range(start, stop, step)` for a positive step: the elements
`start + k * step` for `0 ≤ k < ⌈(stop - start) / step⌉` (empty when
`stop ≤ start`).  Used by `set_inactive_boundaries` (lines 1784-1787). -/
def pyrange (start stop step : ℕ) : List ℕ :=
  (List.range ((stop - start + step - 1) / step)).map (fun k => start + k * step)

/-- Interior test for node `n` of an `R`-row by `C`-column raster grid whose
nodes are numbered row-major (model_grid.py lines 1034-1046): node `n` lies
in row `n / C` and column `n % C`, and is interior exactly when it is not on
the perimeter. -/
def is_interior_node (R C n : ℕ) : Bool :=
  decide (0 < n / C ∧ n / C < R - 1 ∧ 0 < n % C ∧ n % C < C - 1)

/-- Modelled from the spec: the body of `landlab.utils.structured_grid.node_status`,
called at model_grid.py line 1056 with `boundary_status=FIXED_VALUE_BOUNDARY`,
is not part of this repository's sources.  Per the spec (§4.2: default
fully-open boundary, "all perimeter nodes FIXED_VALUE") every perimeter node
of the lattice gets FIXED_VALUE_BOUNDARY and every interior node gets
INTERIOR_NODE; the doctest at model_grid.py lines 946-947 pins this exact
layout for the 4×5 grid. -/
def default_node_status (R C : ℕ) : ℕ → ℕ := fun n =>
  if is_interior_node R C n then INTERIOR_NODE else FIXED_VALUE_BOUNDARY

/-- Modelled from the spec: the body of `landlab.utils.structured_grid.node_active_cell`,
called at model_grid.py line 1083, is not part of this repository's sources.
Per the spec (§3: "The Node↔Cell association is a bijection restricted to
INTERIOR nodes; a sentinel marks nodes without a cell") each interior node
carries the cell numbered row-major over the `(R-2)×(C-2)` interior block,
and perimeter nodes carry the `BAD_INDEX_VALUE` sentinel, here modelled as
`none`; the doctests at model_grid.py lines 948-951 and 978-979 pin this
layout. -/
def node_activecell (R C : ℕ) : ℕ → Option ℕ := fun n =>
  if is_interior_node R C n then some ((n / C - 1) * (C - 2) + (n % C - 1))
  else none

/-- The vertical links of the raster grid, enumerated row-major: for
`r < R-1` and `c < C`, a link from node `c + r*C` up to node `c + (r+1)*C`
(model_grid.py lines 1117-1121). -/
def raster_vertical_links (R C : ℕ) : List (ℕ × ℕ) :=
  (List.range (R - 1)).flatMap fun r =>
    (List.range C).map fun c => (c + r * C, c + (r + 1) * C)

/-- The horizontal links of the raster grid, enumerated row-major: for
`r < R` and `c < C-1`, a link from node `c + r*C` right to node
`c + r*C + 1` (model_grid.py lines 1123-1127). -/
def raster_horizontal_links (R C : ℕ) : List (ℕ × ℕ) :=
  (List.range R).flatMap fun r =>
    (List.range (C - 1)).map fun c => (c + r * C, c + r * C + 1)

/-- The full link list of the raster grid: all vertical links first, then
all horizontal links (model_grid.py lines 1113-1134; the doctest at lines
980-985 pins the resulting `link_fromnode` / `link_tonode` arrays, which
agree with the in-module loop construction used when `_SLOW` is set). -/
def raster_link_list (R C : ℕ) : List (ℕ × ℕ) :=
  raster_vertical_links R C ++ raster_horizontal_links R C

/-- The from-node of link `i` in a link list (the `link_fromnode` array). -/
def link_fromnode (links : List (ℕ × ℕ)) (i : ℕ) : ℕ :=
  (links.getD i (0, 0)).1

/-- The to-node of link `i` in a link list (the `link_tonode` array). -/
def link_tonode (links : List (ℕ × ℕ)) (i : ℕ) : ℕ :=
  (links.getD i (0, 0)).2

/-- The boolean activation rule of `ModelGrid.reset_list_of_active_links`
(model_grid.py lines 618-621): a link is active iff (its from-node is
interior and its to-node is not inactive) or (its to-node is interior and
its from-node is not inactive). -/
def link_is_active (node_status : ℕ → ℕ) (l : ℕ × ℕ) : Bool :=
  ((node_status l.1 == INTERIOR_NODE) && !(node_status l.2 == INACTIVE_BOUNDARY)) ||
  ((node_status l.2 == INTERIOR_NODE) && !(node_status l.1 == INACTIVE_BOUNDARY))

/-- `numpy.where` on a 1-D boolean array: the indices of the `true` entries,
in increasing order (model_grid.py line 623). -/
def numpy_where (bs : List Bool) : List ℕ :=
  (bs.enum.filter fun p => p.2).map fun p => p.1

/-- `ModelGrid.reset_list_of_active_links` (model_grid.py lines 604-627):
gather the two endpoint statuses of every link, apply the boolean activation
rule elementwise, and keep the indices where it holds. -/
def reset_list_of_active_links (node_status : ℕ → ℕ) (links : List (ℕ × ℕ)) : List ℕ :=
  numpy_where (links.map (link_is_active node_status))

/-- The `activelink_fromnode` array rebuilt at model_grid.py line 626:
`link_fromnode` indexed by the active-link list. -/
def activelink_fromnode (node_status : ℕ → ℕ) (links : List (ℕ × ℕ)) : List ℕ :=
  (reset_list_of_active_links node_status links).map (link_fromnode links)

/-- The `activelink_tonode` array rebuilt at model_grid.py line 627. -/
def activelink_tonode (node_status : ℕ → ℕ) (links : List (ℕ × ℕ)) : List ℕ :=
  (reset_list_of_active_links node_status links).map (link_tonode links)

/-- The loop body of `ModelGrid.reset_list_of_active_links_slow`
(model_grid.py lines 652-659): walk the link list carrying the current link
id, and append the id of every link whose endpoint statuses satisfy the
activation rule, written here with the `and`/`or`/`not` connectives of the
Python condition. -/
def reset_slow_aux (node_status : ℕ → ℕ) : List (ℕ × ℕ) → ℕ → List ℕ
  | [], _ => []
  | l :: rest, i =>
    if (node_status l.1 = INTERIOR_NODE ∧ ¬node_status l.2 = INACTIVE_BOUNDARY) ∨
       (node_status l.2 = INTERIOR_NODE ∧ ¬node_status l.1 = INACTIVE_BOUNDARY) then
      i :: reset_slow_aux node_status rest (i + 1)
    else
      reset_slow_aux node_status rest (i + 1)

/-- `ModelGrid.reset_list_of_active_links_slow` (model_grid.py lines
632-667): the per-link loop formulation of active-link derivation. -/
def reset_list_of_active_links_slow (node_status : ℕ → ℕ) (links : List (ℕ × ℕ)) : List ℕ :=
  reset_slow_aux node_status links 0

/-- The `activelink_fromnode` array as rebuilt by the slow path
(model_grid.py line 663). -/
def activelink_fromnode_slow (node_status : ℕ → ℕ) (links : List (ℕ × ℕ)) : List ℕ :=
  (reset_list_of_active_links_slow node_status links).map (link_fromnode links)

/-- The `activelink_tonode` array as rebuilt by the slow path
(model_grid.py line 664). -/
def activelink_tonode_slow (node_status : ℕ → ℕ) (links : List (ℕ × ℕ)) : List ℕ :=
  (reset_list_of_active_links_slow node_status links).map (link_tonode links)

theorem map_add_map_add (l : List ℕ) (a b : ℕ) :
    (l.map (fun i => i + a)).map (fun i => i + b) = l.map (fun i => i + (a + b)) := by
  rw [List.map_map]
  apply List.map_congr_left
  intro i _
  simp [Function.comp]
  omega

theorem numpy_where_enumFrom (bs : List Bool) :
    ∀ k, ((bs.enumFrom k).filter fun p => p.2).map (fun p => p.1) =
      (numpy_where bs).map (fun i => i + k) := by
  induction bs with
  | nil => intro k; simp [numpy_where]
  | cons b bs ih =>
    intro k
    have h1 := ih (k + 1)
    have h0 := ih 1
    cases b
    · simp only [numpy_where, List.enum, List.enumFrom_cons, List.filter_cons,
        Bool.false_eq_true, if_false] at h1 h0 ⊢
      rw [h1, h0, map_add_map_add]
      apply List.map_congr_left
      intro i _
      omega
    · simp only [numpy_where, List.enum, List.enumFrom_cons, List.filter_cons,
        if_true, List.map_cons] at h1 h0 ⊢
      rw [h1, h0, map_add_map_add]
      refine congrArg₂ _ (by omega) ?_
      apply List.map_congr_left
      intro i _
      omega

theorem numpy_where_cons (b : Bool) (bs : List Bool) :
    numpy_where (b :: bs) =
      if b then 0 :: (numpy_where bs).map (fun i => i + 1)
      else (numpy_where bs).map (fun i => i + 1) := by
  have h := numpy_where_enumFrom bs 1
  cases b
  · simp only [numpy_where, List.enum, List.enumFrom_cons, List.filter_cons,
      Bool.false_eq_true, if_false] at h ⊢
    exact h
  · simp only [numpy_where, List.enum, List.enumFrom_cons, List.filter_cons,
      if_true, List.map_cons] at h ⊢
    exact congrArg _ h

theorem reset_slow_aux_eq (node_status : ℕ → ℕ) (links : List (ℕ × ℕ)) :
    ∀ i, reset_slow_aux node_status links i =
      (numpy_where (links.map (link_is_active node_status))).map (fun j => j + i) := by
  induction links with
  | nil => intro i; simp [reset_slow_aux, numpy_where]
  | cons l rest ih =>
    intro i
    have hcond : link_is_active node_status l = true ↔
        ((node_status l.1 = INTERIOR_NODE ∧ ¬node_status l.2 = INACTIVE_BOUNDARY) ∨
         (node_status l.2 = INTERIOR_NODE ∧ ¬node_status l.1 = INACTIVE_BOUNDARY)) := by
      simp [link_is_active]
    rw [List.map_cons, numpy_where_cons]
    by_cases h : (node_status l.1 = INTERIOR_NODE ∧ ¬node_status l.2 = INACTIVE_BOUNDARY) ∨
        (node_status l.2 = INTERIOR_NODE ∧ ¬node_status l.1 = INACTIVE_BOUNDARY)
    · rw [reset_slow_aux, if_pos h, ih (i + 1), if_pos (hcond.mpr h)]
      rw [List.map_cons, map_add_map_add, Nat.zero_add]
      refine congrArg _ ?_
      apply List.map_congr_left
      intro j _
      omega
    · rw [reset_slow_aux, if_neg h, ih (i + 1),
        if_neg (by simp only [hcond]; exact h)]
      rw [map_add_map_add]
      apply List.map_congr_left
      intro j _
      omega

/-- The per-link loop formulation and the boolean-array formulation of
active-link derivation produce the same index list. -/
theorem reset_fast_eq_slow (node_status : ℕ → ℕ) (links : List (ℕ × ℕ)) :
    reset_list_of_active_links_slow node_status links =
      reset_list_of_active_links node_status links := by
  rw [reset_list_of_active_links_slow, reset_slow_aux_eq, reset_list_of_active_links]
  simp

theorem mem_numpy_where (bs : List Bool) :
    ∀ i, i ∈ numpy_where bs ↔ (i < bs.length ∧ bs.getD i false = true) := by
  induction bs with
  | nil => intro i; simp [numpy_where]
  | cons b bs ih =>
    intro i
    rw [numpy_where_cons]
    cases b
    · simp only [Bool.false_eq_true, if_false, List.mem_map]
      cases i with
      | zero => simp
      | succ n =>
        simp only [List.getD_cons_succ, List.length_cons]
        constructor
        · rintro ⟨j, hj, hji⟩
          have hjn : j = n := by omega
          rw [hjn] at hj
          have := (ih n).mp hj
          exact ⟨by omega, this.2⟩
        · intro h
          exact ⟨n, (ih n).mpr ⟨by omega, h.2⟩, rfl⟩
    · simp only [if_true, List.mem_cons, List.mem_map]
      cases i with
      | zero => simp
      | succ n =>
        simp only [List.getD_cons_succ, List.length_cons]
        constructor
        · rintro (h | ⟨j, hj, hji⟩)
          · exact absurd h (by omega)
          · have hjn : j = n := by omega
            rw [hjn] at hj
            have := (ih n).mp hj
            exact ⟨by omega, this.2⟩
        · intro h
          exact Or.inr ⟨n, (ih n).mpr ⟨by omega, h.2⟩, rfl⟩

theorem numpy_where_length (bs : List Bool) :
    (numpy_where bs).length = bs.countP id := by
  induction bs with
  | nil => simp [numpy_where]
  | cons b bs ih =>
    rw [numpy_where_cons]
    cases b <;> simp [List.countP_cons, ih]

theorem numpy_where_sublist (bs : List Bool) :
    (numpy_where bs).Sublist (List.range bs.length) := by
  induction bs with
  | nil => simp [numpy_where]
  | cons b bs ih =>
    rw [numpy_where_cons, List.length_cons, List.range_succ_eq_map]
    have hmap : (List.range bs.length).map Nat.succ =
        (List.range bs.length).map (fun i => i + 1) := by
      apply List.map_congr_left
      intro i _
      omega
    cases b
    · simpa using ((ih.map (fun i => i + 1)).trans (by rw [hmap])).cons 0
    · simpa using ((ih.map (fun i => i + 1)).trans (by rw [hmap])).cons₂ 0

theorem countP_range_getD {α : Type} (l : List α) (p : α → Bool) (d : α) :
    (List.range l.length).countP (fun i => p (l.getD i d)) = l.countP p := by
  induction l with
  | nil => simp
  | cons x xs ih =>
    rw [List.length_cons, List.range_succ_eq_map, List.countP_cons, List.countP_map]
    have : ((fun i => p ((x :: xs).getD i d)) ∘ Nat.succ) = fun i => p (xs.getD i d) := by
      funext i
      simp [List.getD_cons_succ]
    rw [this, ih, List.getD_cons_zero, List.countP_cons]

theorem countP_range_window (a : ℕ) :
    ∀ n, (List.range n).countP (fun c => decide (0 < c ∧ c < a)) = min a n - 1 := by
  intro n
  induction n with
  | zero => simp
  | succ n ih =>
    rw [List.range_succ, List.countP_append, ih]
    by_cases h : 0 < n ∧ n < a <;> simp [List.countP_cons, h] <;> omega

theorem sum_map_ite_count {α : Type} (l : List α) (p : α → Bool) (k : ℕ) :
    (l.map (fun x => if p x then k else 0)).sum = k * l.countP p := by
  induction l with
  | nil => simp
  | cons x xs ih =>
    rw [List.map_cons, List.sum_cons, ih, List.countP_cons]
    by_cases h : p x = true <;> simp [h] <;> ring

theorem sum_map_const_nat {α : Type} (l : List α) (k : ℕ) :
    (l.map (fun _ => k)).sum = l.length * k := by
  induction l with
  | nil => simp
  | cons x xs ih =>
    rw [List.map_cons, List.sum_cons, ih, List.length_cons]
    ring

theorem range_flatMap_mul (C : ℕ) :
    ∀ k, (List.range k).flatMap (fun r => (List.range C).map (fun c => c + r * C)) =
      List.range (k * C) := by
  intro k
  induction k with
  | zero => simp
  | succ k ih =>
    rw [List.range_succ, List.flatMap_append, ih, Nat.succ_mul, List.range_add]
    simp only [List.flatMap_cons, List.flatMap_nil, List.append_nil]
    refine congrArg _ ?_
    apply List.map_congr_left
    intro c _
    omega

theorem is_interior_node_rowcol (R C r c : ℕ) (hc : c < C) :
    is_interior_node R C (c + r * C) = decide (0 < r ∧ r < R - 1 ∧ 0 < c ∧ c < C - 1) := by
  have hC : 0 < C := by omega
  have hdiv : (c + r * C) / C = r := by
    rw [Nat.mul_comm, Nat.add_mul_div_left c r hC, Nat.div_eq_of_lt hc]
    omega
  have hmod : (c + r * C) % C = c := by
    rw [Nat.mul_comm, Nat.add_mul_mod_self_left, Nat.mod_eq_of_lt hc]
  simp [is_interior_node, hdiv, hmod]

theorem default_node_status_ne_inactive (R C n : ℕ) :
    default_node_status R C n ≠ INACTIVE_BOUNDARY := by
  simp only [default_node_status]
  by_cases h : is_interior_node R C n <;>
    simp [h, INTERIOR_NODE, FIXED_VALUE_BOUNDARY, INACTIVE_BOUNDARY]

theorem default_status_eq_interior (R C n : ℕ) :
    (default_node_status R C n == INTERIOR_NODE) = is_interior_node R C n := by
  simp only [default_node_status]
  by_cases h : is_interior_node R C n <;>
    simp [h, INTERIOR_NODE, FIXED_VALUE_BOUNDARY]

theorem link_is_active_default (R C : ℕ) (l : ℕ × ℕ) :
    link_is_active (default_node_status R C) l =
      (is_interior_node R C l.1 || is_interior_node R C l.2) := by
  rw [link_is_active]
  have e1 : (default_node_status R C l.2 == INACTIVE_BOUNDARY) = false := by
    simp [default_node_status_ne_inactive R C l.2]
  have e2 : (default_node_status R C l.1 == INACTIVE_BOUNDARY) = false := by
    simp [default_node_status_ne_inactive R C l.1]
  rw [e1, e2, default_status_eq_interior, default_status_eq_interior]
  simp

theorem countP_active_vertical (R C : ℕ) (hR : 3 ≤ R) (hC : 3 ≤ C) :
    (raster_vertical_links R C).countP (link_is_active (default_node_status R C)) =
      (R - 1) * (C - 2) := by
  rw [raster_vertical_links, List.countP_flatMap]
  have hrow : ∀ r ∈ List.range (R - 1),
      (List.countP (link_is_active (default_node_status R C)) ∘
        fun r => (List.range C).map fun c => (c + r * C, c + (r + 1) * C)) r =
      C - 2 := by
    intro r hr
    rw [List.mem_range] at hr
    simp only [Function.comp_apply]
    rw [List.countP_map]
    have hpt : ∀ c ∈ List.range C,
        (link_is_active (default_node_status R C) ∘
          fun c => (c + r * C, c + (r + 1) * C)) c = true ↔
        (fun c => decide (0 < c ∧ c < C - 1)) c = true := by
      intro c hcm
      rw [List.mem_range] at hcm
      simp only [Function.comp_apply]
      rw [link_is_active_default]
      rw [show ((c + r * C, c + (r + 1) * C) : ℕ × ℕ).1 = c + r * C from rfl,
        show ((c + r * C, c + (r + 1) * C) : ℕ × ℕ).2 = c + (r + 1) * C from rfl]
      rw [is_interior_node_rowcol R C r c hcm, is_interior_node_rowcol R C (r + 1) c hcm]
      rw [← Bool.decide_or]
      simp only [decide_eq_true_eq]
      omega
    rw [List.countP_congr hpt, countP_range_window]
    omega
  rw [List.map_congr_left hrow, sum_map_const_nat, List.length_range]

theorem sum_map_ite_window (a k : ℕ) :
    ∀ n, ((List.range n).map (fun r => if 0 < r ∧ r < a then k else 0)).sum =
      k * (min a n - 1) := by
  intro n
  induction n with
  | zero => simp
  | succ n ih =>
    rw [List.range_succ, List.map_append, List.sum_append, ih]
    by_cases h : 0 < n ∧ n < a
    · simp only [List.map_cons, List.map_nil, List.sum_cons, List.sum_nil, if_pos h]
      rw [Nat.add_zero, ← Nat.mul_succ]
      refine congrArg _ ?_
      omega
    · simp only [List.map_cons, List.map_nil, List.sum_cons, List.sum_nil, if_neg h]
      rw [Nat.add_zero, Nat.add_zero]
      refine congrArg _ ?_
      omega

theorem countP_active_horizontal (R C : ℕ) (hR : 3 ≤ R) (hC : 3 ≤ C) :
    (raster_horizontal_links R C).countP (link_is_active (default_node_status R C)) =
      (R - 2) * (C - 1) := by
  rw [raster_horizontal_links, List.countP_flatMap]
  have hrow : ∀ r ∈ List.range R,
      (List.countP (link_is_active (default_node_status R C)) ∘
        fun r => (List.range (C - 1)).map fun c => (c + r * C, c + r * C + 1)) r =
      if 0 < r ∧ r < R - 1 then C - 1 else 0 := by
    intro r hr
    rw [List.mem_range] at hr
    simp only [Function.comp_apply]
    rw [List.countP_map]
    have hpt : ∀ c ∈ List.range (C - 1),
        (link_is_active (default_node_status R C) ∘
          fun c => (c + r * C, c + r * C + 1)) c = true ↔
        (fun c => decide (0 < r ∧ r < R - 1)) c = true := by
      intro c hcm
      rw [List.mem_range] at hcm
      simp only [Function.comp_apply]
      rw [link_is_active_default]
      rw [show ((c + r * C, c + r * C + 1) : ℕ × ℕ).1 = c + r * C from rfl,
        show ((c + r * C, c + r * C + 1) : ℕ × ℕ).2 = (c + 1) + r * C from by omega]
      rw [is_interior_node_rowcol R C r c (by omega),
        is_interior_node_rowcol R C r (c + 1) (by omega)]
      rw [← Bool.decide_or]
      simp only [decide_eq_true_eq]
      omega
    rw [List.countP_congr hpt]
    by_cases h : 0 < r ∧ r < R - 1
    · have hfun : (fun c : ℕ => decide (0 < r ∧ r < R - 1)) = fun _ => true := by
        funext c
        simp [h]
      rw [hfun, List.countP_true, List.length_range, if_pos h]
    · have hfun : (fun c : ℕ => decide (0 < r ∧ r < R - 1)) = fun _ => false := by
        funext c
        simp [h]
      rw [hfun, if_neg h]
      simp [List.countP_false]
  rw [List.map_congr_left hrow, sum_map_ite_window (R - 1) (C - 1) R]
  have hmin : min (R - 1) R - 1 = R - 2 := by omega
  rw [hmin, Nat.mul_comm]

theorem raster_vertical_links_length (R C : ℕ) :
    (raster_vertical_links R C).length = (R - 1) * C := by
  rw [raster_vertical_links, List.length_flatMap]
  have h : ∀ r ∈ List.range (R - 1),
      (List.length ∘ fun r => (List.range C).map fun c => (c + r * C, c + (r + 1) * C)) r
        = C := by
    intro r _
    simp
  rw [List.map_congr_left h, sum_map_const_nat, List.length_range]

theorem raster_horizontal_links_length (R C : ℕ) :
    (raster_horizontal_links R C).length = R * (C - 1) := by
  rw [raster_horizontal_links, List.length_flatMap]
  have h : ∀ r ∈ List.range R,
      (List.length ∘ fun r => (List.range (C - 1)).map fun c => (c + r * C, c + r * C + 1)) r
        = C - 1 := by
    intro r _
    simp
  rw [List.map_congr_left h, sum_map_const_nat, List.length_range]

theorem raster_link_list_length (R C : ℕ) :
    (raster_link_list R C).length = C * (R - 1) + R * (C - 1) := by
  rw [raster_link_list, List.length_append, raster_vertical_links_length,
    raster_horizontal_links_length, Nat.mul_comm (R - 1) C]

theorem reset_length_countP (node_status : ℕ → ℕ) (links : List (ℕ × ℕ)) :
    (reset_list_of_active_links node_status links).length =
      links.countP (link_is_active node_status) := by
  rw [reset_list_of_active_links, numpy_where_length, List.countP_map]
  rfl

theorem num_active_links_default (R C : ℕ) (hR : 3 ≤ R) (hC : 3 ≤ C) :
    (reset_list_of_active_links (default_node_status R C) (raster_link_list R C)).length
      = (R - 1) * (C - 2) + (R - 2) * (C - 1) := by
  rw [reset_length_countP, raster_link_list, List.countP_append,
    countP_active_vertical R C hR hC, countP_active_horizontal R C hR hC]

/-- The grid state stored by `RasterModelGrid.initialize_grid` (model_grid.py
lines 923-1146): shape descriptors, the element counts assigned at lines
996-1006, the default node-status array, the link list, and the derived
active-link list. -/
structure RasterGrid where
  nrows : ℕ
  ncols : ℕ
  dx : ℚ
  num_nodes : ℕ
  num_cells : ℕ
  num_links : ℕ
  node_status : ℕ → ℕ
  links : List (ℕ × ℕ)
  active_links : List ℕ

/-- The `initialize(num_rows, num_cols, dx)` method of RasterModelGrid (model_grid.py
lines 923-1146): store the closed-form counts (lines 1002-1006), assign the
default fully-open boundary status (line 1056), build the link list (lines
1113-1134), and derive the active-link list (line 1146); the stored
`num_active_links` is immediately recomputed by
`reset_list_of_active_links` (line 625) as the length of `active_links`,
which is how it is modelled here. -/
def RasterModelGrid.initialize_grid (num_rows num_cols : ℕ) (dx : ℚ) : RasterGrid :=
  { nrows := num_rows
    ncols := num_cols
    dx := dx
    num_nodes := num_rows * num_cols
    num_cells := (num_rows - 2) * (num_cols - 2)
    num_links := num_cols * (num_rows - 1) + num_rows * (num_cols - 1)
    node_status := default_node_status num_rows num_cols
    links := raster_link_list num_rows num_cols
    active_links := reset_list_of_active_links (default_node_status num_rows num_cols)
      (raster_link_list num_rows num_cols) }

/-- The `num_active_links` count as held after `initialize` finishes: the
length of the recomputed active-link list (model_grid.py line 625). -/
def RasterGrid.num_active_links (g : RasterGrid) : ℕ :=
  g.active_links.length

/-- C1: for every raster grid built with R rows, C columns (R,C ≥ 3) and
spacing dx, under the default fully-open boundary the stored counts satisfy
num_nodes = R*C, num_cells = (R-2)*(C-2), num_links = C*(R-1) + R*(C-1)
(and the built link list indeed has that many links), and
num_active_links = num_links - 2*(C-1) - 2*(R-1); instantiated at R=4, C=5
this gives 20 nodes, 6 cells, 31 links, 17 active links (see the witness). -/
theorem C1_raster_grid_counts (R C : ℕ) (dx : ℚ) (hR : 3 ≤ R) (hC : 3 ≤ C) :
    (RasterModelGrid.initialize_grid R C dx).num_nodes = R * C ∧
    (RasterModelGrid.initialize_grid R C dx).num_cells = (R - 2) * (C - 2) ∧
    (RasterModelGrid.initialize_grid R C dx).num_links = C * (R - 1) + R * (C - 1) ∧
    (RasterModelGrid.initialize_grid R C dx).links.length =
      (RasterModelGrid.initialize_grid R C dx).num_links ∧
    (RasterModelGrid.initialize_grid R C dx).num_active_links =
      (RasterModelGrid.initialize_grid R C dx).num_links - (2 * (C - 1) + 2 * (R - 1)) := by
  refine ⟨rfl, rfl, rfl, ?_, ?_⟩
  · exact raster_link_list_length R C
  · show (reset_list_of_active_links (default_node_status R C) (raster_link_list R C)).length
      = C * (R - 1) + R * (C - 1) - (2 * (C - 1) + 2 * (R - 1))
    rw [num_active_links_default R C hR hC]
    have s1 : (C - 2) * (R - 1) = C * (R - 1) - 2 * (R - 1) := Nat.sub_mul C 2 (R - 1)
    have s2 : (R - 2) * (C - 1) = R * (C - 1) - 2 * (C - 1) := Nat.sub_mul R 2 (C - 1)
    have b1 : 2 * (R - 1) ≤ C * (R - 1) := Nat.mul_le_mul_right _ (by omega)
    have b2 : 2 * (C - 1) ≤ R * (C - 1) := Nat.mul_le_mul_right _ (by omega)
    rw [Nat.mul_comm (R - 1) (C - 2), s1, s2]
    generalize hA : C * (R - 1) = A at b1 ⊢
    generalize hB : R * (C - 1) = B at b2 ⊢
    omega

/-- Witness for C1 at the concrete grid of the claim: R=4, C=5, dx=1 gives
20 nodes, 6 cells, 31 links and 17 active links. -/
theorem C1_raster_grid_counts_witness :
    (3 ≤ 4 ∧ 3 ≤ 5) ∧
    (RasterModelGrid.initialize_grid 4 5 1).num_nodes = 20 ∧
    (RasterModelGrid.initialize_grid 4 5 1).num_cells = 6 ∧
    (RasterModelGrid.initialize_grid 4 5 1).num_links = 31 ∧
    (RasterModelGrid.initialize_grid 4 5 1).num_active_links = 17 := by
  have h := C1_raster_grid_counts 4 5 1 (by decide) (by decide)
  refine ⟨⟨by decide, by decide⟩, h.1.trans (by decide), h.2.1.trans (by decide),
    h.2.2.1.trans (by decide), ?_⟩
  have h4 := h.2.2.2.2
  rw [h.2.2.1] at h4
  exact h4.trans (by decide)

theorem getD_map_lt {α β : Type} (f : α → β) (l : List α) (i : ℕ) (d : β) (d' : α)
    (h : i < l.length) : (l.map f).getD i d = f (l.getD i d') := by
  rw [List.getD_eq_getElem _ _ (by simpa using h), List.getD_eq_getElem _ _ h,
    List.getElem_map]

/-- C8: for every node-status array and link list, the boolean-array
formulation of active-link derivation (`reset_list_of_active_links`) and the
per-link loop formulation (`reset_list_of_active_links_slow`) produce
exactly the same `active_links` array, the same `num_active_links`, and the
same `activelink_fromnode` and `activelink_tonode` arrays. -/
theorem C8_reset_formulations_equivalent (node_status : ℕ → ℕ) (links : List (ℕ × ℕ)) :
    reset_list_of_active_links_slow node_status links =
      reset_list_of_active_links node_status links ∧
    (reset_list_of_active_links_slow node_status links).length =
      (reset_list_of_active_links node_status links).length ∧
    activelink_fromnode_slow node_status links = activelink_fromnode node_status links ∧
    activelink_tonode_slow node_status links = activelink_tonode node_status links := by
  have h := reset_fast_eq_slow node_status links
  exact ⟨h, by rw [h], by rw [activelink_fromnode_slow, activelink_fromnode, h],
    by rw [activelink_tonode_slow, activelink_tonode, h]⟩

/-- C3: for every node-status array, every link list and every link id in
range, after recomputing the active-link list the link is a member of
`active_links` if and only if (its from-node status is INTERIOR and its
to-node status is not INACTIVE) or (its to-node status is INTERIOR and its
from-node status is not INACTIVE). -/
theorem C3_active_link_membership (node_status : ℕ → ℕ) (links : List (ℕ × ℕ)) (i : ℕ)
    (h : i < links.length) :
    i ∈ reset_list_of_active_links node_status links ↔
      ((node_status (link_fromnode links i) = INTERIOR_NODE ∧
        node_status (link_tonode links i) ≠ INACTIVE_BOUNDARY) ∨
       (node_status (link_tonode links i) = INTERIOR_NODE ∧
        node_status (link_fromnode links i) ≠ INACTIVE_BOUNDARY)) := by
  rw [reset_list_of_active_links, mem_numpy_where, List.length_map,
    getD_map_lt (link_is_active node_status) links i false (0, 0) h]
  have hcond : link_is_active node_status (links.getD i (0, 0)) = true ↔
      ((node_status (links.getD i (0, 0)).1 = INTERIOR_NODE ∧
        ¬node_status (links.getD i (0, 0)).2 = INACTIVE_BOUNDARY) ∨
       (node_status (links.getD i (0, 0)).2 = INTERIOR_NODE ∧
        ¬node_status (links.getD i (0, 0)).1 = INACTIVE_BOUNDARY)) := by
    simp [link_is_active]
  rw [link_fromnode, link_tonode]
  constructor
  · rintro ⟨-, hb⟩
    exact hcond.mp hb
  · intro hp
    exact ⟨h, hcond.mpr hp⟩

/-- Witness for C3 on a concrete grid: link 1 of the default 4×5 raster grid
(the vertical link from boundary node 1 up to interior node 6) is active,
and the iff instantiates accordingly. -/
theorem C3_active_link_membership_witness :
    (1 < (raster_link_list 4 5).length) ∧
    (1 ∈ reset_list_of_active_links (default_node_status 4 5) (raster_link_list 4 5) ↔
      ((default_node_status 4 5 (link_fromnode (raster_link_list 4 5) 1) = INTERIOR_NODE ∧
        default_node_status 4 5 (link_tonode (raster_link_list 4 5) 1) ≠ INACTIVE_BOUNDARY) ∨
       (default_node_status 4 5 (link_tonode (raster_link_list 4 5) 1) = INTERIOR_NODE ∧
        default_node_status 4 5 (link_fromnode (raster_link_list 4 5) 1) ≠ INACTIVE_BOUNDARY))) :=
  ⟨by decide,
   C3_active_link_membership (default_node_status 4 5) (raster_link_list 4 5) 1 (by decide)⟩

/-- `ModelGrid.deactivate_nodata_nodes` as it acts on the node-status array
(model_grid.py lines 685-688): set the status of every node whose data value
equals the nodata value to INACTIVE_BOUNDARY, leaving all other entries
unchanged (the routine then rebuilds the active-cell list and the
active-link list; the status array itself is written only here). -/
def deactivate_nodata_nodes (node_status : ℕ → ℕ) (node_data : ℕ → ℚ)
    (nodata_value : ℚ) : ℕ → ℕ := fun n =>
  if node_data n = nodata_value then INACTIVE_BOUNDARY else node_status n

/-- C6: for every grid state, every node-data array, and every sentinel
value, applying `deactivate_nodata_nodes` twice with the same (data,
sentinel) pair leaves the node-status array identical (at every node) to
applying it once. -/
theorem C6_deactivate_nodata_idempotent (node_status : ℕ → ℕ) (node_data : ℕ → ℚ)
    (nodata_value : ℚ) (n : ℕ) :
    deactivate_nodata_nodes (deactivate_nodata_nodes node_status node_data nodata_value)
        node_data nodata_value n =
      deactivate_nodata_nodes node_status node_data nodata_value n := by
  by_cases hd : node_data n = nodata_value <;> simp [deactivate_nodata_nodes, hd]

theorem rowcol_div_mod (C r c : ℕ) (hc : c < C) :
    (r * C + c) / C = r ∧ (r * C + c) % C = c := by
  constructor
  · rw [Nat.add_comm, Nat.mul_comm, Nat.add_mul_div_left c r (by omega),
      Nat.div_eq_of_lt hc]
    omega
  · rw [Nat.add_comm, Nat.mul_comm, Nat.add_mul_mod_self_left, Nat.mod_eq_of_lt hc]

theorem rowcol_unique (C r c i j : ℕ) (hc : c < C) (hj : j < C)
    (h : r * C + c = i * C + j) : r = i ∧ c = j := by
  have h1 := (rowcol_div_mod C r c hc).1
  have h2 := (rowcol_div_mod C r c hc).2
  have h3 := (rowcol_div_mod C i j hj).1
  have h4 := (rowcol_div_mod C i j hj).2
  rw [h] at h1 h2
  exact ⟨h1.symm.trans h3, h2.symm.trans h4⟩

/-- The per-edge status code written by `set_inactive_boundaries`:
INACTIVE_BOUNDARY for a closed (inactive) edge, FIXED_VALUE_BOUNDARY for an
open one (model_grid.py lines 1789-1807). -/
def boundary_code (edge_is_inactive : Bool) : ℕ :=
  if edge_is_inactive then INACTIVE_BOUNDARY else FIXED_VALUE_BOUNDARY

/-- `bottom_edge = range(0, ncols-1)` (model_grid.py line 1784). -/
def bottom_edge (R C : ℕ) : List ℕ := pyrange 0 (C - 1) 1

/-- `right_edge = range(ncols-1, num_nodes-1, ncols)` (line 1785). -/
def right_edge (R C : ℕ) : List ℕ := pyrange (C - 1) (R * C - 1) C

/-- `top_edge = range((nrows-1)*ncols+1, num_nodes)` (line 1786). -/
def top_edge (R C : ℕ) : List ℕ := pyrange ((R - 1) * C + 1) (R * C) 1

/-- `left_edge = range(ncols, num_nodes, ncols)` (line 1787). -/
def left_edge (R C : ℕ) : List ℕ := pyrange C (R * C) C

/-- The numpy fancy assignment `node_status[edge] = code`: every node in the
edge list gets the code, all other nodes keep their status. -/
def set_nodes_status (edge : List ℕ) (code : ℕ) (node_status : ℕ → ℕ) : ℕ → ℕ :=
  fun n => if n ∈ edge then code else node_status n

/-- `RasterModelGrid.set_inactive_boundaries` as it acts on the node-status
array (model_grid.py lines 1735-1807): assign the bottom edge, then the
right edge, then the top edge, then the left edge, each to
INACTIVE_BOUNDARY or FIXED_VALUE_BOUNDARY according to its boolean (the
routine then recomputes the active-link list). -/
def set_inactive_boundaries (R C : ℕ) (node_status : ℕ → ℕ)
    (bottom_is_inactive right_is_inactive top_is_inactive left_is_inactive : Bool) :
    ℕ → ℕ :=
  set_nodes_status (left_edge R C) (boundary_code left_is_inactive)
    (set_nodes_status (top_edge R C) (boundary_code top_is_inactive)
      (set_nodes_status (right_edge R C) (boundary_code right_is_inactive)
        (set_nodes_status (bottom_edge R C) (boundary_code bottom_is_inactive)
          node_status)))

theorem bottom_edge_eq (R C : ℕ) :
    bottom_edge R C = (List.range (C - 1)).map (fun k => k) := by
  rw [bottom_edge, pyrange]
  have e : (C - 1 - 0 + 1 - 1) / 1 = C - 1 := by omega
  rw [e]
  apply List.map_congr_left
  intro k _
  omega

theorem right_edge_eq (R C : ℕ) (hR : 3 ≤ R) (hC : 3 ≤ C) :
    right_edge R C = (List.range (R - 1)).map (fun k => C - 1 + k * C) := by
  rw [right_edge, pyrange]
  have h1 : (R - 1) * C = R * C - 1 * C := Nat.sub_mul R 1 C
  have h2 : C ≤ R * C := by
    calc C = 1 * C := (Nat.one_mul C).symm
    _ ≤ R * C := Nat.mul_le_mul_right C (by omega)
  have e : R * C - 1 - (C - 1) + C - 1 = (R - 1) * C + (C - 1) := by
    generalize hA : R * C = A at h1 h2 ⊢
    generalize hB : (R - 1) * C = B at h1 ⊢
    omega
  rw [e, (rowcol_div_mod C (R - 1) (C - 1) (by omega)).1]

theorem top_edge_eq (R C : ℕ) (hR : 3 ≤ R) (hC : 3 ≤ C) :
    top_edge R C = (List.range (C - 1)).map (fun k => (R - 1) * C + 1 + k) := by
  rw [top_edge, pyrange]
  have h1 : (R - 1) * C = R * C - 1 * C := Nat.sub_mul R 1 C
  have h2 : C ≤ R * C := by
    calc C = 1 * C := (Nat.one_mul C).symm
    _ ≤ R * C := Nat.mul_le_mul_right C (by omega)
  have e : (R * C - ((R - 1) * C + 1) + 1 - 1) / 1 = C - 1 := by
    generalize hA : R * C = A at h1 h2 ⊢
    generalize hB : (R - 1) * C = B at h1 ⊢
    omega
  rw [e]
  apply List.map_congr_left
  intro k _
  omega

theorem left_edge_eq (R C : ℕ) (hR : 3 ≤ R) (hC : 3 ≤ C) :
    left_edge R C = (List.range (R - 1)).map (fun k => (k + 1) * C) := by
  rw [left_edge, pyrange]
  have h1 : (R - 1) * C = R * C - 1 * C := Nat.sub_mul R 1 C
  have h2 : C ≤ R * C := by
    calc C = 1 * C := (Nat.one_mul C).symm
    _ ≤ R * C := Nat.mul_le_mul_right C (by omega)
  have e : (R * C - C + C - 1) / C = R - 1 := by
    have e2 : R * C - C + C - 1 = (R - 1) * C + (C - 1) := by
      generalize hA : R * C = A at h1 h2 ⊢
      generalize hB : (R - 1) * C = B at h1 ⊢
      omega
    rw [e2, (rowcol_div_mod C (R - 1) (C - 1) (by omega)).1]
  rw [e]
  apply List.map_congr_left
  intro k _
  ring

theorem mem_bottom_edge (R C i j : ℕ) (hC : 3 ≤ C) (hj : j < C) :
    (i * C + j ∈ bottom_edge R C) ↔ (i = 0 ∧ j < C - 1) := by
  rw [bottom_edge_eq]
  simp only [List.mem_map, List.mem_range]
  constructor
  · rintro ⟨k, hk, he⟩
    have hk2 : k < C := by omega
    have e0 : (0 : ℕ) * C + k = i * C + j := by omega
    have := rowcol_unique C 0 k i j hk2 hj e0
    omega
  · rintro ⟨h0, hlt⟩
    subst h0
    exact ⟨j, hlt, by omega⟩

theorem mem_right_edge (R C i j : ℕ) (hR : 3 ≤ R) (hC : 3 ≤ C) (hj : j < C) :
    (i * C + j ∈ right_edge R C) ↔ (j = C - 1 ∧ i < R - 1) := by
  rw [right_edge_eq R C hR hC]
  simp only [List.mem_map, List.mem_range]
  constructor
  · rintro ⟨k, hk, he⟩
    have e0 : k * C + (C - 1) = i * C + j := by omega
    have := rowcol_unique C k (C - 1) i j (by omega) hj e0
    omega
  · rintro ⟨hjc, hi⟩
    exact ⟨i, hi, by omega⟩

theorem mem_top_edge (R C i j : ℕ) (hR : 3 ≤ R) (hC : 3 ≤ C) (hj : j < C) :
    (i * C + j ∈ top_edge R C) ↔ (i = R - 1 ∧ 1 ≤ j) := by
  rw [top_edge_eq R C hR hC]
  simp only [List.mem_map, List.mem_range]
  constructor
  · rintro ⟨k, hk, he⟩
    have e0 : (R - 1) * C + (1 + k) = i * C + j := by omega
    have := rowcol_unique C (R - 1) (1 + k) i j (by omega) hj e0
    omega
  · rintro ⟨hiR, hj1⟩
    refine ⟨j - 1, by omega, ?_⟩
    subst hiR
    omega

theorem mem_left_edge (R C i j : ℕ) (hR : 3 ≤ R) (hC : 3 ≤ C) (hi : i < R) (hj : j < C) :
    (i * C + j ∈ left_edge R C) ↔ (j = 0 ∧ 1 ≤ i) := by
  rw [left_edge_eq R C hR hC]
  simp only [List.mem_map, List.mem_range]
  constructor
  · rintro ⟨k, hk, he⟩
    have e0 : (k + 1) * C + 0 = i * C + j := by omega
    have := rowcol_unique C (k + 1) 0 i j (by omega) hj e0
    omega
  · rintro ⟨hj0, hi1⟩
    refine ⟨i - 1, by omega, ?_⟩
    have e : (i - 1 + 1) = i := by omega
    rw [e]
    omega

set_option maxHeartbeats 2000000 in
/-- C7: for every raster grid shape (R,C ≥ 3), every starting node-status
array and every choice of the four edge booleans,
`set_inactive_boundaries` assigns every node of each edge the status
INACTIVE_BOUNDARY or FIXED_VALUE_BOUNDARY according to that edge's boolean,
with each corner node assigned according to exactly one adjacent edge:
bottom-left by the bottom edge, bottom-right by the right edge, top-right by
the top edge, and top-left by the left edge; all interior nodes keep their
previous status.  Node (row i, column j) is node number i*C + j. -/
theorem C7_set_inactive_boundaries_layout (R C : ℕ) (node_status : ℕ → ℕ)
    (bottom_is_inactive right_is_inactive top_is_inactive left_is_inactive : Bool)
    (i j : ℕ) (hR : 3 ≤ R) (hC : 3 ≤ C) (hi : i < R) (hj : j < C) :
    set_inactive_boundaries R C node_status bottom_is_inactive right_is_inactive
        top_is_inactive left_is_inactive (i * C + j) =
      (if i = 0 ∧ j = 0 then boundary_code bottom_is_inactive
       else if i = 0 ∧ j = C - 1 then boundary_code right_is_inactive
       else if i = R - 1 ∧ j = C - 1 then boundary_code top_is_inactive
       else if i = R - 1 ∧ j = 0 then boundary_code left_is_inactive
       else if i = 0 then boundary_code bottom_is_inactive
       else if i = R - 1 then boundary_code top_is_inactive
       else if j = 0 then boundary_code left_is_inactive
       else if j = C - 1 then boundary_code right_is_inactive
       else node_status (i * C + j)) := by
  simp only [set_inactive_boundaries, set_nodes_status]
  simp only [mem_left_edge R C i j hR hC hi hj, mem_top_edge R C i j hR hC hj,
    mem_right_edge R C i j hR hC hj, mem_bottom_edge R C i j hC hj]
  split_ifs <;> first | rfl | (exfalso; omega)

/-- Witness for C7 on the concrete doctest configuration: the 4×5 grid with
top and left edges set inactive; the top-left corner node (row 3, column 0,
node 15) is assigned by the left edge, hence INACTIVE_BOUNDARY. -/
theorem C7_set_inactive_boundaries_layout_witness :
    ((3:ℕ) ≤ 4 ∧ (3:ℕ) ≤ 5 ∧ (3:ℕ) < 4 ∧ (0:ℕ) < 5) ∧
    set_inactive_boundaries 4 5 (default_node_status 4 5) false false true true
        (3 * 5 + 0) =
      (if (3:ℕ) = 0 ∧ (0:ℕ) = 0 then boundary_code false
       else if (3:ℕ) = 0 ∧ (0:ℕ) = 5 - 1 then boundary_code false
       else if (3:ℕ) = 4 - 1 ∧ (0:ℕ) = 5 - 1 then boundary_code true
       else if (3:ℕ) = 4 - 1 ∧ (0:ℕ) = 0 then boundary_code true
       else if (3:ℕ) = 0 then boundary_code false
       else if (3:ℕ) = 4 - 1 then boundary_code true
       else if (0:ℕ) = 0 then boundary_code true
       else if (0:ℕ) = 5 - 1 then boundary_code false
       else default_node_status 4 5 (3 * 5 + 0)) :=
  ⟨⟨by decide, by decide, by decide, by decide⟩,
   C7_set_inactive_boundaries_layout 4 5 (default_node_status 4 5) false false true true
     3 0 (by decide) (by decide) (by decide) (by decide)⟩

/-- The named settings consumed by `create_and_initialize_grid`
(model_grid.py lines 106-126) through the external parameter-dictionary
interface (spec §6): the grid-type name, the raster shape and spacing, and
the four per-edge boundary modes (each read with default 'open'). -/
structure GridInputSource where
  grid_type : String
  num_rows : ℕ
  num_cols : ℕ
  spacing : ℚ
  left_boundary : String
  right_boundary : String
  top_boundary : String
  bottom_boundary : String

/-- `_is_closed_boundary` (model_grid.py lines 60-62): a boundary mode
string means closed exactly when it lower-cases to 'closed'. -/
def is_closed_boundary (boundary_string : String) : Bool :=
  boundary_string.toLower == "closed"

/-- `create_and_initialize_grid` (model_grid.py lines 65-133): read the
grid-type name; for 'raster', build a RasterModelGrid from the shape
settings and apply the configured per-edge boundary modes via
`set_inactive_boundaries`; for any other grid-type name, print a message,
set `mg = None`, and return it (modelled as `none`).  Note that line 107
computes `grid_type.strip().lower()` but discards the result, so the
comparison at line 110 uses the raw string. -/
def create_and_initialize_grid (input_source : GridInputSource) : Option RasterGrid :=
  if input_source.grid_type = "raster" then
    let mg := RasterModelGrid.initialize_grid input_source.num_rows input_source.num_cols
      input_source.spacing
    let st := set_inactive_boundaries input_source.num_rows input_source.num_cols
      mg.node_status
      (is_closed_boundary input_source.bottom_boundary)
      (is_closed_boundary input_source.right_boundary)
      (is_closed_boundary input_source.top_boundary)
      (is_closed_boundary input_source.left_boundary)
    some { mg with node_status := st,
                   active_links := reset_list_of_active_links st mg.links }
  else
    none

/-- C9 counterexample: a configuration source whose grid-type name
('delaunay') is not a recognized grid type makes
`create_and_initialize_grid` return `none` — a null grid handed back to the
caller — rather than failing with a ConfigurationError (the code path at
model_grid.py lines 128-133 raises nothing). -/
theorem C9_unknown_grid_type_counterexample :
    create_and_initialize_grid
      { grid_type := "delaunay", num_rows := 4, num_cols := 5, spacing := 1,
        left_boundary := "open", right_boundary := "open",
        top_boundary := "open", bottom_boundary := "open" } = none := by
  rfl

/-- C9 (amended): for every configuration source whose grid-type name is not
'raster' (the only recognized grid type), building a grid from named
settings returns a null grid (`None`) to the caller after printing a
message; no ConfigurationError is raised. -/
theorem C9_unknown_grid_type_returns_null (input_source : GridInputSource)
    (h : input_source.grid_type ≠ "raster") :
    create_and_initialize_grid input_source = none := by
  rw [create_and_initialize_grid, if_neg h]

/-- Witness for the amended C9 at a concrete unknown grid type. -/
theorem C9_unknown_grid_type_returns_null_witness :
    ("hex" ≠ "raster") ∧
    create_and_initialize_grid
      { grid_type := "hex", num_rows := 3, num_cols := 3, spacing := 1,
        left_boundary := "open", right_boundary := "open",
        top_boundary := "open", bottom_boundary := "open" } = none :=
  ⟨by decide,
   C9_unknown_grid_type_returns_null
     { grid_type := "hex", num_rows := 3, num_cols := 3, spacing := 1,
       left_boundary := "open", right_boundary := "open",
       top_boundary := "open", bottom_boundary := "open" } (by decide)⟩

theorem getD_set_ne {α : Type} (g : List α) (i j : ℕ) (v d : α) (h : i ≠ j) :
    (g.set i v).getD j d = g.getD j d := by
  rw [List.getD_eq_getElem?_getD, List.getD_eq_getElem?_getD, List.getElem?_set_ne h]

theorem getD_set_self {α : Type} (g : List α) (i : ℕ) (v d : α) (h : i < g.length) :
    (g.set i v).getD i d = v := by
  rw [List.getD_eq_getElem?_getD, List.getElem?_set_self h]
  rfl

/-- `RasterModelGrid.calculate_gradients_at_active_links` (model_grid.py
lines 1889-1932): the vectorized expression at line 1930,
`(s[self.activelink_tonode] - s[self.activelink_fromnode]) / self._dx`,
evaluated elementwise over the active-link endpoint index arrays. -/
def RasterModelGrid.calculate_gradients_at_active_links (R C : ℕ) (dx : ℚ)
    (node_status : ℕ → ℕ) (s : ℕ → ℚ) : List ℚ :=
  (((activelink_tonode node_status (raster_link_list R C)).map s).zip
      ((activelink_fromnode node_status (raster_link_list R C)).map s)).map
    (fun p => (p.1 - p.2) / dx)

/-- The loop of `ModelGrid.calculate_gradients_at_active_links`
(model_grid.py lines 329-334): for each active link in order, write
`(s[link_tonode[link_id]] - s[link_fromnode[link_id]]) / link_length[link_id]`
into the gradient buffer at the running active-link index. -/
def ModelGrid.calc_gradients_aux (links : List (ℕ × ℕ)) (link_length : ℕ → ℚ)
    (s : ℕ → ℚ) : List ℕ → ℕ → List ℚ → List ℚ
  | [], _, gradient => gradient
  | lid :: rest, active_link_id, gradient =>
    ModelGrid.calc_gradients_aux links link_length s rest (active_link_id + 1)
      (gradient.set active_link_id
        ((s (link_tonode links lid) - s (link_fromnode links lid)) / link_length lid))

/-- `ModelGrid.calculate_gradients_at_active_links` (model_grid.py lines
316-336): allocate a zero gradient array of length `num_active_links` (the
`gradient=None` default at lines 323-324) and run the per-active-link
loop. -/
def ModelGrid.calculate_gradients_at_active_links (node_status : ℕ → ℕ)
    (links : List (ℕ × ℕ)) (link_length : ℕ → ℚ) (s : ℕ → ℚ) : List ℚ :=
  ModelGrid.calc_gradients_aux links link_length s
    (reset_list_of_active_links node_status links) 0
    (List.replicate (reset_list_of_active_links node_status links).length 0)

theorem calc_gradients_aux_length (links : List (ℕ × ℕ)) (link_length : ℕ → ℚ)
    (s : ℕ → ℚ) :
    ∀ (ls : List ℕ) (i : ℕ) (g : List ℚ),
      (ModelGrid.calc_gradients_aux links link_length s ls i g).length = g.length := by
  intro ls
  induction ls with
  | nil => intro i g; rfl
  | cons lid rest ih =>
    intro i g
    rw [ModelGrid.calc_gradients_aux, ih, List.length_set]

theorem calc_gradients_aux_getD_lt (links : List (ℕ × ℕ)) (link_length : ℕ → ℚ)
    (s : ℕ → ℚ) :
    ∀ (ls : List ℕ) (i : ℕ) (g : List ℚ) (j : ℕ), j < i →
      (ModelGrid.calc_gradients_aux links link_length s ls i g).getD j 0 = g.getD j 0 := by
  intro ls
  induction ls with
  | nil => intro i g j _; rfl
  | cons lid rest ih =>
    intro i g j hj
    rw [ModelGrid.calc_gradients_aux, ih (i + 1) _ j (by omega),
      getD_set_ne _ i j _ _ (by omega)]

theorem calc_gradients_aux_getD (links : List (ℕ × ℕ)) (link_length : ℕ → ℚ)
    (s : ℕ → ℚ) :
    ∀ (ls : List ℕ) (i : ℕ) (g : List ℚ) (j : ℕ),
      j < ls.length → i + ls.length ≤ g.length →
      (ModelGrid.calc_gradients_aux links link_length s ls i g).getD (i + j) 0 =
        (s (link_tonode links (ls.getD j 0)) - s (link_fromnode links (ls.getD j 0))) /
          link_length (ls.getD j 0) := by
  intro ls
  induction ls with
  | nil =>
    intro i g j hj _
    exact absurd hj (by simp)
  | cons lid rest ih =>
    intro i g j hj hg
    rw [ModelGrid.calc_gradients_aux]
    cases j with
    | zero =>
      simp only [Nat.add_zero]
      rw [calc_gradients_aux_getD_lt links link_length s rest (i + 1) _ i
        (by omega)]
      rw [getD_set_self _ i _ _ (by simp at hg ⊢; omega)]
      rw [List.getD_cons_zero]
    | succ n =>
      have e : i + (n + 1) = (i + 1) + n := by omega
      rw [e, ih (i + 1) _ n (by simp at hj; omega) (by rw [List.length_set]; simp at hg; omega)]
      rw [List.getD_cons_succ]

theorem raster_gradients_eq_map (R C : ℕ) (dx : ℚ) (node_status : ℕ → ℕ) (s : ℕ → ℚ) :
    RasterModelGrid.calculate_gradients_at_active_links R C dx node_status s =
      (reset_list_of_active_links node_status (raster_link_list R C)).map
        (fun lid => (s (link_tonode (raster_link_list R C) lid) -
          s (link_fromnode (raster_link_list R C) lid)) / dx) := by
  rw [RasterModelGrid.calculate_gradients_at_active_links, activelink_tonode,
    activelink_fromnode, List.map_map, List.map_map, List.zip_map', List.map_map]
  rfl

/-- C5: for every grid (node-status array, link list, link lengths), every
node-value array s, and every active link, the gradient operator returns at
that active link the value (s[to-node] − s[from-node]) divided by the link's
length, and the returned array's length always equals the active-link
count.  Stated for the generic per-link loop of `ModelGrid` (which divides
by `link_length[link_id]`) and for the vectorized raster override of
`RasterModelGrid` (where every link's length is the grid spacing dx). -/
theorem C5_gradient_values_and_length (node_status : ℕ → ℕ) (links : List (ℕ × ℕ))
    (link_length : ℕ → ℚ) (s : ℕ → ℚ) (R C : ℕ) (dx : ℚ) (rstatus : ℕ → ℕ) (rs : ℕ → ℚ)
    (i k : ℕ)
    (hi : i < (reset_list_of_active_links node_status links).length)
    (hk : k < (reset_list_of_active_links rstatus (raster_link_list R C)).length) :
    ((ModelGrid.calculate_gradients_at_active_links node_status links link_length s).length =
        (reset_list_of_active_links node_status links).length ∧
      (ModelGrid.calculate_gradients_at_active_links node_status links link_length s).getD
          i 0 =
        (s (link_tonode links ((reset_list_of_active_links node_status links).getD i 0)) -
          s (link_fromnode links ((reset_list_of_active_links node_status links).getD i 0))) /
          link_length ((reset_list_of_active_links node_status links).getD i 0)) ∧
    ((RasterModelGrid.calculate_gradients_at_active_links R C dx rstatus rs).length =
        (reset_list_of_active_links rstatus (raster_link_list R C)).length ∧
      (RasterModelGrid.calculate_gradients_at_active_links R C dx rstatus rs).getD k 0 =
        (rs (link_tonode (raster_link_list R C)
            ((reset_list_of_active_links rstatus (raster_link_list R C)).getD k 0)) -
          rs (link_fromnode (raster_link_list R C)
            ((reset_list_of_active_links rstatus (raster_link_list R C)).getD k 0))) /
          dx) := by
  refine ⟨⟨?_, ?_⟩, ?_, ?_⟩
  · rw [ModelGrid.calculate_gradients_at_active_links, calc_gradients_aux_length,
      List.length_replicate]
  · have h := calc_gradients_aux_getD links link_length s
      (reset_list_of_active_links node_status links) 0
      (List.replicate (reset_list_of_active_links node_status links).length 0) i hi
      (by rw [List.length_replicate]; omega)
    rw [ModelGrid.calculate_gradients_at_active_links]
    simpa using h
  · rw [raster_gradients_eq_map]
    simp
  · rw [raster_gradients_eq_map, getD_map_lt _ _ k 0 0 hk]

/-- Witness for C5: a one-link all-interior grid for the generic loop (link
(0,1), length 2) and the default 3×3 raster grid for the vectorized form,
both at active link 0. -/
theorem C5_gradient_values_and_length_witness :
    (0 < (reset_list_of_active_links (fun _ => 0) [(0, 1)]).length ∧
      0 < (reset_list_of_active_links (default_node_status 3 3)
        (raster_link_list 3 3)).length) ∧
    ((ModelGrid.calculate_gradients_at_active_links (fun _ => 0) [(0, 1)] (fun _ => 2)
          (fun n => (n : ℚ))).length =
        (reset_list_of_active_links (fun _ => 0) [(0, 1)]).length ∧
      (ModelGrid.calculate_gradients_at_active_links (fun _ => 0) [(0, 1)] (fun _ => 2)
          (fun n => (n : ℚ))).getD 0 0 =
        ((fun n => (n : ℚ)) (link_tonode [(0, 1)]
            ((reset_list_of_active_links (fun _ => 0) [(0, 1)]).getD 0 0)) -
          (fun n => (n : ℚ)) (link_fromnode [(0, 1)]
            ((reset_list_of_active_links (fun _ => 0) [(0, 1)]).getD 0 0))) /
          (fun _ => (2 : ℚ)) ((reset_list_of_active_links (fun _ => 0) [(0, 1)]).getD 0 0)) ∧
    ((RasterModelGrid.calculate_gradients_at_active_links 3 3 1 (default_node_status 3 3)
          (fun n => (n : ℚ))).length =
        (reset_list_of_active_links (default_node_status 3 3) (raster_link_list 3 3)).length ∧
      (RasterModelGrid.calculate_gradients_at_active_links 3 3 1 (default_node_status 3 3)
          (fun n => (n : ℚ))).getD 0 0 =
        ((fun n => (n : ℚ)) (link_tonode (raster_link_list 3 3)
            ((reset_list_of_active_links (default_node_status 3 3)
              (raster_link_list 3 3)).getD 0 0)) -
          (fun n => (n : ℚ)) (link_fromnode (raster_link_list 3 3)
            ((reset_list_of_active_links (default_node_status 3 3)
              (raster_link_list 3 3)).getD 0 0))) / 1) :=
  ⟨⟨by decide, by decide⟩,
    (C5_gradient_values_and_length (fun _ => 0) [(0, 1)] (fun _ => 2) (fun n => (n : ℚ))
      3 3 1 (default_node_status 3 3) (fun n => (n : ℚ)) 0 0 (by decide) (by decide)).1,
    (C5_gradient_values_and_length (fun _ => 0) [(0, 1)] (fun _ => 2) (fun n => (n : ℚ))
      3 3 1 (default_node_status 3 3) (fun n => (n : ℚ)) 0 0 (by decide) (by decide)).2⟩

/-- A minimal store of allocated numpy arrays: each array is identified by
its position in the allocation list.  Used to state the object-identity
(framing) behaviour of routines that allocate fresh arrays. -/
structure ArrayStore where
  arrays : List (List ℚ)

/-- Allocate a fresh array in the store: the new array receives an identity
distinct from every existing one, and no existing array is modified. -/
def ArrayStore.alloc (st : ArrayStore) (v : List ℚ) : ArrayStore × ℕ :=
  (⟨st.arrays ++ [v]⟩, st.arrays.length)

/-- `RasterModelGrid.calculate_gradients_at_active_links` called with a
caller-supplied gradient buffer (model_grid.py lines 1920-1932): after the
length assert at line 1927, line 1930 evaluates the elementwise expression
`(s[self.activelink_tonode] - s[self.activelink_fromnode]) / self._dx`,
which allocates a fresh numpy array and rebinds the local name `gradient`
to it; the supplied buffer is never written.  The call returns the updated
store together with the identity of the returned array. -/
def RasterModelGrid.calculate_gradients_with_buffer (R C : ℕ) (dx : ℚ)
    (node_status : ℕ → ℕ) (s : ℕ → ℚ) (st : ArrayStore) (gradient : ℕ) :
    ArrayStore × ℕ :=
  ArrayStore.alloc st
    (RasterModelGrid.calculate_gradients_at_active_links R C dx node_status s)

/-- C10: for every raster grid, node-value array s, and caller-supplied
output buffer of length num_active_links,
`RasterModelGrid.calculate_gradients_at_active_links` returns a newly
allocated result array distinct from the supplied buffer, the supplied
buffer's contents are left unchanged, and the returned array holds the
fresh gradient computation (independent of the buffer's contents). -/
theorem C10_gradient_buffer_never_written (R C : ℕ) (dx : ℚ) (node_status : ℕ → ℕ)
    (s : ℕ → ℚ) (st : ArrayStore) (gradient : ℕ)
    (hbuf : gradient < st.arrays.length)
    (hlen : (st.arrays.getD gradient []).length =
      (reset_list_of_active_links node_status (raster_link_list R C)).length) :
    (RasterModelGrid.calculate_gradients_with_buffer R C dx node_status s st
        gradient).2 ≠ gradient ∧
    (RasterModelGrid.calculate_gradients_with_buffer R C dx node_status s st
        gradient).1.arrays.getD gradient [] = st.arrays.getD gradient [] ∧
    (RasterModelGrid.calculate_gradients_with_buffer R C dx node_status s st
        gradient).1.arrays.getD
        (RasterModelGrid.calculate_gradients_with_buffer R C dx node_status s st
          gradient).2 [] =
      RasterModelGrid.calculate_gradients_at_active_links R C dx node_status s := by
  refine ⟨?_, ?_, ?_⟩
  · simp only [RasterModelGrid.calculate_gradients_with_buffer, ArrayStore.alloc]
    omega
  · simp only [RasterModelGrid.calculate_gradients_with_buffer, ArrayStore.alloc]
    exact List.getD_append _ _ _ _ hbuf
  · simp only [RasterModelGrid.calculate_gradients_with_buffer, ArrayStore.alloc]
    rw [List.getD_append_right _ _ _ _ (Nat.le_refl _)]
    simp

/-- Witness for C10: a store holding one buffer of the right length (4, the
active-link count of the default 3×3 grid). -/
theorem C10_gradient_buffer_never_written_witness :
    (0 < (ArrayStore.mk [List.replicate 4 0]).arrays.length ∧
      ((ArrayStore.mk [List.replicate 4 0]).arrays.getD 0 []).length =
        (reset_list_of_active_links (default_node_status 3 3)
          (raster_link_list 3 3)).length) ∧
    (RasterModelGrid.calculate_gradients_with_buffer 3 3 1 (default_node_status 3 3)
        (fun n => (n : ℚ)) (ArrayStore.mk [List.replicate 4 0]) 0).2 ≠ 0 ∧
    (RasterModelGrid.calculate_gradients_with_buffer 3 3 1 (default_node_status 3 3)
        (fun n => (n : ℚ)) (ArrayStore.mk [List.replicate 4 0]) 0).1.arrays.getD 0 [] =
      (ArrayStore.mk [List.replicate 4 0]).arrays.getD 0 [] ∧
    (RasterModelGrid.calculate_gradients_with_buffer 3 3 1 (default_node_status 3 3)
        (fun n => (n : ℚ)) (ArrayStore.mk [List.replicate 4 0]) 0).1.arrays.getD
        (RasterModelGrid.calculate_gradients_with_buffer 3 3 1 (default_node_status 3 3)
          (fun n => (n : ℚ)) (ArrayStore.mk [List.replicate 4 0]) 0).2 [] =
      RasterModelGrid.calculate_gradients_at_active_links 3 3 1 (default_node_status 3 3)
        (fun n => (n : ℚ)) :=
  ⟨⟨by decide, by decide⟩,
    C10_gradient_buffer_never_written 3 3 1 (default_node_status 3 3) (fun n => (n : ℚ))
      (ArrayStore.mk [List.replicate 4 0]) 0 (by decide) (by decide)⟩

/-- The ordered list of active-link indices whose from-node is `n`: the
populated slots of node `n`'s column in the active outlink matrix.  Mirrors
`setup_active_inlink_and_outlink_matrices` (model_grid.py lines 1456-1483,
and the in-module loop variant at lines 1485-1516), which walks the active
links in increasing active-link-index order and appends each one to the next
row of its from-node's column. -/
def active_outlinks_at (node_status : ℕ → ℕ) (links : List (ℕ × ℕ)) (n : ℕ) : List ℕ :=
  (((reset_list_of_active_links node_status links).enum).filter
    (fun p => link_fromnode links p.2 == n)).map (fun p => p.1)

/-- The ordered list of active-link indices whose to-node is `n`: the
populated slots of node `n`'s column in the active inlink matrix
(model_grid.py lines 1456-1516). -/
def active_inlinks_at (node_status : ℕ → ℕ) (links : List (ℕ × ℕ)) (n : ℕ) : List ℕ :=
  (((reset_list_of_active_links node_status links).enum).filter
    (fun p => link_tonode links p.2 == n)).map (fun p => p.1)

/-- Row `row`, column `n` of `node_active_outlink_matrix` (model_grid.py
lines 1463-1483): the `row`-th active outlink index of node `n`, or the
sentinel −1 when the node has fewer than `row+1` active outlinks. -/
def node_active_outlink_matrix (node_status : ℕ → ℕ) (links : List (ℕ × ℕ))
    (row n : ℕ) : ℤ :=
  ((active_outlinks_at node_status links n).map (Int.ofNat)).getD row (-1)

/-- Row `row`, column `n` of `node_active_inlink_matrix` (model_grid.py
lines 1463-1483). -/
def node_active_inlink_matrix (node_status : ℕ → ℕ) (links : List (ℕ × ℕ))
    (row n : ℕ) : ℤ :=
  ((active_inlinks_at node_status links n).map (Int.ofNat)).getD row (-1)

/-- `RasterModelGrid.calculate_flux_divergence_at_nodes` (model_grid.py
lines 2096-2163): build the extended flux array of length
num_active_links+1 whose leading entries are `active_link_flux * dx` and
whose trailing slot stays zero (lines 2155-2156), then for every node gather
the two active-outlink slots and the two active-inlink slots of its matrix
columns — python's negative indexing makes the −1 sentinel read the zero
slot — and divide by the cell area dx·dx (lines 2158-2161). -/
def RasterModelGrid.calculate_flux_divergence_at_nodes (R C : ℕ) (dx : ℚ)
    (node_status : ℕ → ℕ) (active_link_flux : List ℚ) : List ℚ :=
  (List.range (R * C)).map fun n =>
    ((pyget (active_link_flux.map (fun q => q * dx) ++ [0])
        (node_active_outlink_matrix node_status (raster_link_list R C) 0 n) +
      pyget (active_link_flux.map (fun q => q * dx) ++ [0])
        (node_active_outlink_matrix node_status (raster_link_list R C) 1 n)) -
     (pyget (active_link_flux.map (fun q => q * dx) ++ [0])
        (node_active_inlink_matrix node_status (raster_link_list R C) 0 n) +
      pyget (active_link_flux.map (fun q => q * dx) ++ [0])
        (node_active_inlink_matrix node_status (raster_link_list R C) 1 n))) /
    (dx * dx)

/-- One iteration of the loop of
`RasterModelGrid.calculate_flux_divergence_at_nodes_slow` (model_grid.py
lines 2214-2229) for flux value `f` on link `lid`: add `f * dx / (dx*dx)`
into the accumulator at the from-node when that node has an associated cell
(its `node_activecell` entry is not the BAD_INDEX_VALUE sentinel), then
subtract the same quantity at the to-node when it has a cell. -/
def flux_div_step (R C : ℕ) (dx : ℚ) (links : List (ℕ × ℕ)) (f : ℚ) (lid : ℕ)
    (net_unit_flux : List ℚ) : List ℚ :=
  let acc1 := if (node_activecell R C (link_fromnode links lid)).isSome then
      net_unit_flux.set (link_fromnode links lid)
        (net_unit_flux.getD (link_fromnode links lid) 0 + f * dx / (dx * dx))
    else net_unit_flux
  if (node_activecell R C (link_tonode links lid)).isSome then
    acc1.set (link_tonode links lid)
      (acc1.getD (link_tonode links lid) 0 - f * dx / (dx * dx))
  else acc1

/-- The loop of `RasterModelGrid.calculate_flux_divergence_at_nodes_slow`
(model_grid.py lines 2214-2229): walk the active links in order, carrying
the running active-link index into the flux array. -/
def flux_div_slow_aux (R C : ℕ) (dx : ℚ) (links : List (ℕ × ℕ))
    (active_link_flux : List ℚ) : List ℕ → ℕ → List ℚ → List ℚ
  | [], _, net_unit_flux => net_unit_flux
  | lid :: rest, active_link_id, net_unit_flux =>
    flux_div_slow_aux R C dx links active_link_flux rest (active_link_id + 1)
      (flux_div_step R C dx links (active_link_flux.getD active_link_id 0) lid
        net_unit_flux)

/-- `RasterModelGrid.calculate_flux_divergence_at_nodes_slow` (model_grid.py
lines 2165-2231): allocate a zero accumulator of length num_nodes (the
`net_unit_flux is False` default at lines 2205-2206) and run the explicit
per-active-link accumulation loop. -/
def RasterModelGrid.calculate_flux_divergence_at_nodes_slow (R C : ℕ) (dx : ℚ)
    (node_status : ℕ → ℕ) (active_link_flux : List ℚ) : List ℚ :=
  flux_div_slow_aux R C dx (raster_link_list R C) active_link_flux
    (reset_list_of_active_links node_status (raster_link_list R C)) 0
    (List.replicate (R * C) 0)

theorem flux_div_step_length (R C : ℕ) (dx : ℚ) (links : List (ℕ × ℕ)) (f : ℚ)
    (lid : ℕ) (acc : List ℚ) :
    (flux_div_step R C dx links f lid acc).length = acc.length := by
  simp only [flux_div_step]
  by_cases hf : (node_activecell R C (link_fromnode links lid)).isSome <;>
    by_cases ht : (node_activecell R C (link_tonode links lid)).isSome <;>
    simp [hf, ht]

theorem flux_div_step_getD (R C : ℕ) (dx : ℚ) (links : List (ℕ × ℕ)) (f : ℚ)
    (lid : ℕ) (acc : List ℚ) (n : ℕ) (hn : n < acc.length) :
    (flux_div_step R C dx links f lid acc).getD n 0 =
      acc.getD n 0 +
        ((if link_fromnode links lid = n ∧ (node_activecell R C n).isSome then
            f * dx / (dx * dx) else 0) -
         (if link_tonode links lid = n ∧ (node_activecell R C n).isSome then
            f * dx / (dx * dx) else 0)) := by
  simp only [flux_div_step]
  by_cases hfn : link_fromnode links lid = n <;>
    by_cases htn : link_tonode links lid = n <;>
    by_cases hf : (node_activecell R C (link_fromnode links lid)).isSome <;>
    by_cases ht : (node_activecell R C (link_tonode links lid)).isSome <;>
    simp_all [getD_set_self, getD_set_ne, List.length_set] <;>
    ring

theorem flux_div_slow_aux_length (R C : ℕ) (dx : ℚ) (links : List (ℕ × ℕ))
    (flux : List ℚ) :
    ∀ (ls : List ℕ) (i : ℕ) (acc : List ℚ),
      (flux_div_slow_aux R C dx links flux ls i acc).length = acc.length := by
  intro ls
  induction ls with
  | nil => intro i acc; rfl
  | cons lid rest ih =>
    intro i acc
    rw [flux_div_slow_aux, ih, flux_div_step_length]

theorem flux_div_slow_aux_getD (R C : ℕ) (dx : ℚ) (links : List (ℕ × ℕ))
    (flux : List ℚ) :
    ∀ (ls : List ℕ) (i : ℕ) (acc : List ℚ) (n : ℕ), n < acc.length →
      (flux_div_slow_aux R C dx links flux ls i acc).getD n 0 =
        acc.getD n 0 +
          ((ls.enumFrom i).map (fun p =>
            (if link_fromnode links p.2 = n ∧ (node_activecell R C n).isSome then
              flux.getD p.1 0 * dx / (dx * dx) else 0) -
            (if link_tonode links p.2 = n ∧ (node_activecell R C n).isSome then
              flux.getD p.1 0 * dx / (dx * dx) else 0))).sum := by
  intro ls
  induction ls with
  | nil =>
    intro i acc n hn
    simp [flux_div_slow_aux]
  | cons lid rest ih =>
    intro i acc n hn
    rw [flux_div_slow_aux, ih (i + 1) _ n (by rw [flux_div_step_length]; exact hn),
      flux_div_step_getD R C dx links _ lid acc n hn, List.enumFrom_cons,
      List.map_cons, List.sum_cons]
    ring

theorem flatMap_congr_left {α β : Type} (l : List α) (f g : α → List β)
    (h : ∀ a ∈ l, f a = g a) : l.flatMap f = l.flatMap g := by
  induction l with
  | nil => rfl
  | cons x xs ih =>
    rw [List.flatMap_cons, List.flatMap_cons, h x (by simp),
      ih (fun a ha => h a (by simp [ha]))]

theorem getD_range (m n : ℕ) (h : n < m) : (List.range m).getD n 0 = n := by
  rw [List.getD_eq_getElem _ _ (by simpa using h), List.getElem_range]

theorem getD_replicate_zero (m n : ℕ) : (List.replicate m (0 : ℚ)).getD n 0 = 0 := by
  induction m generalizing n with
  | zero => rfl
  | succ k ih =>
    rw [List.replicate_succ]
    cases n with
    | zero => rfl
    | succ j => rw [List.getD_cons_succ, ih]

theorem pyget_neg_one (xs : List ℚ) : pyget (xs ++ [(0 : ℚ)]) (-1) = 0 := by
  rw [pyget, if_neg (by omega)]
  have e : (-(-1 : ℤ)).toNat = 1 := rfl
  rw [e, List.length_append]
  simp only [List.length_cons, List.length_nil]
  have e2 : xs.length + 1 - 1 = xs.length := by omega
  rw [e2, List.getD_append_right _ _ _ _ (Nat.le_refl _), Nat.sub_self]
  rfl

theorem pyget_ofNat (flux : List ℚ) (dx : ℚ) (k : ℕ) (hk : k < flux.length) :
    pyget (flux.map (fun q => q * dx) ++ [0]) (Int.ofNat k) = flux.getD k 0 * dx := by
  rw [pyget, if_pos (show (0 : ℤ) ≤ Int.ofNat k from Int.ofNat_nonneg k)]
  have e : (Int.ofNat k).toNat = k := rfl
  rw [e, List.getD_append _ _ _ _ (by simpa using hk), getD_map_lt _ _ k 0 0 hk]

theorem gather_pair_sum (flux : List ℚ) (dx : ℚ) (ks : List ℕ)
    (hk : ∀ k ∈ ks, k < flux.length) (hle : ks.length ≤ 2) :
    pyget (flux.map (fun q => q * dx) ++ [0]) ((ks.map Int.ofNat).getD 0 (-1)) +
      pyget (flux.map (fun q => q * dx) ++ [0]) ((ks.map Int.ofNat).getD 1 (-1)) =
      (ks.map (fun k => flux.getD k 0 * dx)).sum := by
  rcases ks with _ | ⟨a, _ | ⟨b, _ | ⟨c, t⟩⟩⟩
  · simp only [List.map_nil, List.getD_nil, List.sum_nil, pyget_neg_one]
    ring
  · simp only [List.map_cons, List.map_nil, List.getD_cons_zero, List.getD_cons_succ,
      List.getD_nil, List.sum_cons, List.sum_nil]
    rw [pyget_ofNat flux dx a (hk a (by simp)), pyget_neg_one]
  · simp only [List.map_cons, List.map_nil, List.getD_cons_zero, List.getD_cons_succ,
      List.sum_cons, List.sum_nil]
    rw [pyget_ofNat flux dx a (hk a (by simp)), pyget_ofNat flux dx b (hk b (by simp))]
    ring
  · exfalso
    simp only [List.length_cons] at hle
    omega

theorem countP_enumFrom_snd {α : Type} (p : α → Bool) :
    ∀ (l : List α) (i : ℕ), (l.enumFrom i).countP (fun q => p q.2) = l.countP p := by
  intro l
  induction l with
  | nil => intro i; rfl
  | cons x xs ih =>
    intro i
    rw [List.enumFrom_cons, List.countP_cons, List.countP_cons, ih]

theorem sublist_active_links (node_status : ℕ → ℕ) (links : List (ℕ × ℕ)) :
    (reset_list_of_active_links node_status links).Sublist (List.range links.length) := by
  rw [reset_list_of_active_links]
  have h := numpy_where_sublist (links.map (link_is_active node_status))
  simpa using h

theorem countP_active_links_le (node_status : ℕ → ℕ) (links : List (ℕ × ℕ))
    (p : (ℕ × ℕ) → Bool) :
    (reset_list_of_active_links node_status links).countP
        (fun lid => p (links.getD lid (0, 0))) ≤
      links.countP p := by
  calc (reset_list_of_active_links node_status links).countP
        (fun lid => p (links.getD lid (0, 0)))
      ≤ (List.range links.length).countP (fun lid => p (links.getD lid (0, 0))) :=
        (sublist_active_links node_status links).countP_le _
    _ = links.countP p := countP_range_getD links p (0, 0)

theorem vert_fst_map (R C : ℕ) :
    (raster_vertical_links R C).map (fun l => l.1) = List.range ((R - 1) * C) := by
  rw [raster_vertical_links, List.map_flatMap]
  rw [flatMap_congr_left _ _ (fun r => (List.range C).map fun c => c + r * C)
    (fun r _ => by rw [List.map_map]; rfl)]
  exact range_flatMap_mul C (R - 1)

theorem vert_snd_map (R C : ℕ) :
    (raster_vertical_links R C).map (fun l => l.2) =
      (List.range ((R - 1) * C)).map (fun x => x + C) := by
  rw [raster_vertical_links, List.map_flatMap]
  rw [flatMap_congr_left _ _
    (fun r => ((List.range C).map (fun c => c + r * C)).map (fun x => x + C))
    (fun r _ => by
      simp only [List.map_map]
      apply List.map_congr_left
      intro c _
      simp only [Function.comp_apply]
      ring)]
  rw [← List.map_flatMap, range_flatMap_mul C (R - 1)]

theorem horiz_fst_nodup (R C : ℕ) :
    ((raster_horizontal_links R C).map (fun l => l.1)).Nodup := by
  rw [raster_horizontal_links, List.map_flatMap]
  rw [flatMap_congr_left _ _ (fun r => (List.range (C - 1)).map fun c => c + r * C)
    (fun r _ => by rw [List.map_map]; rfl)]
  rw [List.nodup_flatMap]
  constructor
  · intro r _
    exact (List.nodup_range _).map (fun a b hab => by omega)
  · apply (List.pairwise_lt_range R).imp
    intro a b hab
    intro x hxa hxb
    simp only [List.mem_map, List.mem_range] at hxa hxb
    obtain ⟨c1, hc1, e1⟩ := hxa
    obtain ⟨c2, hc2, e2⟩ := hxb
    have h1 := (rowcol_div_mod C a c1 (by omega)).1
    have h2 := (rowcol_div_mod C b c2 (by omega)).1
    rw [show a * C + c1 = x from by omega] at h1
    rw [show b * C + c2 = x from by omega] at h2
    omega

theorem horiz_snd_nodup (R C : ℕ) :
    ((raster_horizontal_links R C).map (fun l => l.2)).Nodup := by
  rw [raster_horizontal_links, List.map_flatMap]
  rw [flatMap_congr_left _ _ (fun r => (List.range (C - 1)).map fun c => c + r * C + 1)
    (fun r _ => by rw [List.map_map]; rfl)]
  rw [List.nodup_flatMap]
  constructor
  · intro r _
    exact (List.nodup_range _).map (fun a b hab => by omega)
  · apply (List.pairwise_lt_range R).imp
    intro a b hab
    intro x hxa hxb
    simp only [List.mem_map, List.mem_range] at hxa hxb
    obtain ⟨c1, hc1, e1⟩ := hxa
    obtain ⟨c2, hc2, e2⟩ := hxb
    have h1 := (rowcol_div_mod C a (c1 + 1) (by omega)).1
    have h2 := (rowcol_div_mod C b (c2 + 1) (by omega)).1
    rw [show a * C + (c1 + 1) = x from by omega] at h1
    rw [show b * C + (c2 + 1) = x from by omega] at h2
    omega

theorem countP_eq_count_map_fst (links : List (ℕ × ℕ)) (n : ℕ) :
    links.countP (fun l => l.1 == n) = (links.map (fun l => l.1)).count n := by
  rw [List.count_eq_countP, List.countP_map]
  rfl

theorem countP_eq_count_map_snd (links : List (ℕ × ℕ)) (n : ℕ) :
    links.countP (fun l => l.2 == n) = (links.map (fun l => l.2)).count n := by
  rw [List.count_eq_countP, List.countP_map]
  rfl

theorem raster_fromnode_count_le_two (R C n : ℕ) :
    (raster_link_list R C).countP (fun l => l.1 == n) ≤ 2 := by
  rw [raster_link_list, List.countP_append]
  have h1 : (raster_vertical_links R C).countP (fun l => l.1 == n) ≤ 1 := by
    rw [countP_eq_count_map_fst, vert_fst_map]
    exact List.nodup_iff_count_le_one.mp (List.nodup_range _) n
  have h2 : (raster_horizontal_links R C).countP (fun l => l.1 == n) ≤ 1 := by
    rw [countP_eq_count_map_fst]
    exact List.nodup_iff_count_le_one.mp (horiz_fst_nodup R C) n
  omega

theorem raster_tonode_count_le_two (R C n : ℕ) :
    (raster_link_list R C).countP (fun l => l.2 == n) ≤ 2 := by
  rw [raster_link_list, List.countP_append]
  have h1 : (raster_vertical_links R C).countP (fun l => l.2 == n) ≤ 1 := by
    rw [countP_eq_count_map_snd, vert_snd_map]
    exact List.nodup_iff_count_le_one.mp
      ((List.nodup_range _).map (fun a b hab => by omega)) n
  have h2 : (raster_horizontal_links R C).countP (fun l => l.2 == n) ≤ 1 := by
    rw [countP_eq_count_map_snd]
    exact List.nodup_iff_count_le_one.mp (horiz_snd_nodup R C) n
  omega

theorem active_outlinks_at_length_le (R C : ℕ) (node_status : ℕ → ℕ) (n : ℕ) :
    (active_outlinks_at node_status (raster_link_list R C) n).length ≤ 2 := by
  rw [active_outlinks_at, List.length_map, ← List.countP_eq_length_filter]
  have h := countP_enumFrom_snd
    (fun lid => link_fromnode (raster_link_list R C) lid == n)
    (reset_list_of_active_links node_status (raster_link_list R C)) 0
  rw [show (reset_list_of_active_links node_status (raster_link_list R C)).enum =
    (reset_list_of_active_links node_status (raster_link_list R C)).enumFrom 0 from rfl]
  rw [h]
  calc (reset_list_of_active_links node_status (raster_link_list R C)).countP
        (fun lid => link_fromnode (raster_link_list R C) lid == n)
      ≤ (raster_link_list R C).countP (fun l => l.1 == n) :=
        countP_active_links_le node_status (raster_link_list R C) (fun l => l.1 == n)
    _ ≤ 2 := raster_fromnode_count_le_two R C n

theorem active_inlinks_at_length_le (R C : ℕ) (node_status : ℕ → ℕ) (n : ℕ) :
    (active_inlinks_at node_status (raster_link_list R C) n).length ≤ 2 := by
  rw [active_inlinks_at, List.length_map, ← List.countP_eq_length_filter]
  have h := countP_enumFrom_snd
    (fun lid => link_tonode (raster_link_list R C) lid == n)
    (reset_list_of_active_links node_status (raster_link_list R C)) 0
  rw [show (reset_list_of_active_links node_status (raster_link_list R C)).enum =
    (reset_list_of_active_links node_status (raster_link_list R C)).enumFrom 0 from rfl]
  rw [h]
  calc (reset_list_of_active_links node_status (raster_link_list R C)).countP
        (fun lid => link_tonode (raster_link_list R C) lid == n)
      ≤ (raster_link_list R C).countP (fun l => l.2 == n) :=
        countP_active_links_le node_status (raster_link_list R C) (fun l => l.2 == n)
    _ ≤ 2 := raster_tonode_count_le_two R C n

theorem mem_enum_fst_lt {α : Type} (l : List α) (p : ℕ × α) (h : p ∈ l.enum) :
    p.1 < l.length := by
  obtain ⟨i, x⟩ := p
  have := List.mem_enumFrom h
  omega

theorem active_outlinks_at_mem_lt (node_status : ℕ → ℕ) (links : List (ℕ × ℕ)) (n k : ℕ)
    (h : k ∈ active_outlinks_at node_status links n) :
    k < (reset_list_of_active_links node_status links).length := by
  rw [active_outlinks_at] at h
  simp only [List.mem_map, List.mem_filter] at h
  obtain ⟨p, ⟨hp, _⟩, he⟩ := h
  have := mem_enum_fst_lt _ p hp
  omega

theorem active_inlinks_at_mem_lt (node_status : ℕ → ℕ) (links : List (ℕ × ℕ)) (n k : ℕ)
    (h : k ∈ active_inlinks_at node_status links n) :
    k < (reset_list_of_active_links node_status links).length := by
  rw [active_inlinks_at] at h
  simp only [List.mem_map, List.mem_filter] at h
  obtain ⟨p, ⟨hp, _⟩, he⟩ := h
  have := mem_enum_fst_lt _ p hp
  omega

theorem sum_map_sub {α : Type} (l : List α) (f g : α → ℚ) :
    (l.map (fun x => f x - g x)).sum = (l.map f).sum - (l.map g).sum := by
  induction l with
  | nil => simp
  | cons x xs ih =>
    simp only [List.map_cons, List.sum_cons, ih]
    ring

theorem sum_map_div {α : Type} (l : List α) (f : α → ℚ) (d : ℚ) :
    (l.map (fun x => f x / d)).sum = (l.map f).sum / d := by
  induction l with
  | nil => simp
  | cons x xs ih =>
    simp only [List.map_cons, List.sum_cons, ih]
    ring

theorem sum_map_filter_ite {α : Type} (p : α → Bool) (f : α → ℚ) (l : List α) :
    ((l.filter p).map f).sum = (l.map (fun x => if p x then f x else 0)).sum := by
  induction l with
  | nil => rfl
  | cons x xs ih =>
    rw [List.filter_cons]
    by_cases h : p x <;> simp [h, ih]

theorem sum_map_sub_div {α : Type} (l : List α) (F G : α → ℚ) (d : ℚ) :
    (l.map (fun x => F x / d - G x / d)).sum = ((l.map F).sum - (l.map G).sum) / d := by
  induction l with
  | nil => simp
  | cons x xs ih =>
    simp only [List.map_cons, List.sum_cons, ih]
    ring

theorem out_gather_sum (R C : ℕ) (dx : ℚ) (node_status : ℕ → ℕ) (flux : List ℚ) (n : ℕ)
    (hflux : flux.length =
      (reset_list_of_active_links node_status (raster_link_list R C)).length) :
    pyget (flux.map (fun q => q * dx) ++ [0])
        (node_active_outlink_matrix node_status (raster_link_list R C) 0 n) +
      pyget (flux.map (fun q => q * dx) ++ [0])
        (node_active_outlink_matrix node_status (raster_link_list R C) 1 n) =
      (((reset_list_of_active_links node_status (raster_link_list R C)).enum).map
        (fun p => if link_fromnode (raster_link_list R C) p.2 = n then
          flux.getD p.1 0 * dx else 0)).sum := by
  rw [node_active_outlink_matrix, node_active_outlink_matrix,
    gather_pair_sum flux dx _
      (fun k hk => by
        rw [hflux]
        exact active_outlinks_at_mem_lt node_status _ n k hk)
      (active_outlinks_at_length_le R C node_status n)]
  rw [active_outlinks_at, List.map_map]
  rw [sum_map_filter_ite (fun p => link_fromnode (raster_link_list R C) p.2 == n)
    ((fun k => flux.getD k 0 * dx) ∘ (fun p : ℕ × ℕ => p.1)) _]
  apply congrArg
  apply List.map_congr_left
  intro p _
  by_cases h : link_fromnode (raster_link_list R C) p.2 = n <;>
    simp [h, Function.comp]

theorem in_gather_sum (R C : ℕ) (dx : ℚ) (node_status : ℕ → ℕ) (flux : List ℚ) (n : ℕ)
    (hflux : flux.length =
      (reset_list_of_active_links node_status (raster_link_list R C)).length) :
    pyget (flux.map (fun q => q * dx) ++ [0])
        (node_active_inlink_matrix node_status (raster_link_list R C) 0 n) +
      pyget (flux.map (fun q => q * dx) ++ [0])
        (node_active_inlink_matrix node_status (raster_link_list R C) 1 n) =
      (((reset_list_of_active_links node_status (raster_link_list R C)).enum).map
        (fun p => if link_tonode (raster_link_list R C) p.2 = n then
          flux.getD p.1 0 * dx else 0)).sum := by
  rw [node_active_inlink_matrix, node_active_inlink_matrix,
    gather_pair_sum flux dx _
      (fun k hk => by
        rw [hflux]
        exact active_inlinks_at_mem_lt node_status _ n k hk)
      (active_inlinks_at_length_le R C node_status n)]
  rw [active_inlinks_at, List.map_map]
  rw [sum_map_filter_ite (fun p => link_tonode (raster_link_list R C) p.2 == n)
    ((fun k => flux.getD k 0 * dx) ∘ (fun p : ℕ × ℕ => p.1)) _]
  apply congrArg
  apply List.map_congr_left
  intro p _
  by_cases h : link_tonode (raster_link_list R C) p.2 = n <;>
    simp [h, Function.comp]

/-- C2 (amended): for every raster grid (any shape R×C and any node-status
array, hence any boundary configuration) and every active-link flux array of
length num_active_links, the explicit per-link accumulation form of flux
divergence (`calculate_flux_divergence_at_nodes_slow`) and the vectorized
gather form using the active inlink/outlink matrices with the zero-valued
phantom slot (`calculate_flux_divergence_at_nodes`) return identical values
at every node that has an associated cell.  (At nodes without a cell —
perimeter nodes — the two differ: the gather form computes a value there
while the loop form leaves zero; see the counterexample.) -/
theorem C2_flux_divergence_forms_agree_at_cell_nodes (R C : ℕ) (dx : ℚ)
    (node_status : ℕ → ℕ) (flux : List ℚ) (n : ℕ)
    (hflux : flux.length =
      (reset_list_of_active_links node_status (raster_link_list R C)).length)
    (hn : n < R * C) (hcell : (node_activecell R C n).isSome) :
    (RasterModelGrid.calculate_flux_divergence_at_nodes R C dx node_status flux).getD
        n 0 =
      (RasterModelGrid.calculate_flux_divergence_at_nodes_slow R C dx node_status
        flux).getD n 0 := by
  rw [RasterModelGrid.calculate_flux_divergence_at_nodes,
    getD_map_lt _ (List.range (R * C)) n 0 0 (by simpa using hn), getD_range _ _ hn]
  rw [out_gather_sum R C dx node_status flux n hflux,
    in_gather_sum R C dx node_status flux n hflux]
  rw [RasterModelGrid.calculate_flux_divergence_at_nodes_slow,
    flux_div_slow_aux_getD R C dx _ flux _ 0 _ n
      (by rw [List.length_replicate]; exact hn),
    getD_replicate_zero]
  rw [show (reset_list_of_active_links node_status (raster_link_list R C)).enumFrom 0 =
    (reset_list_of_active_links node_status (raster_link_list R C)).enum from rfl]
  have hterm : ∀ p ∈ (reset_list_of_active_links node_status (raster_link_list R C)).enum,
      ((if link_fromnode (raster_link_list R C) p.2 = n ∧
          (node_activecell R C n).isSome then flux.getD p.1 0 * dx / (dx * dx) else 0) -
       (if link_tonode (raster_link_list R C) p.2 = n ∧
          (node_activecell R C n).isSome then flux.getD p.1 0 * dx / (dx * dx) else 0)) =
      ((fun p : ℕ × ℕ => if link_fromnode (raster_link_list R C) p.2 = n then
          flux.getD p.1 0 * dx else 0) p / (dx * dx) -
       (fun p : ℕ × ℕ => if link_tonode (raster_link_list R C) p.2 = n then
          flux.getD p.1 0 * dx else 0) p / (dx * dx)) := by
    intro p _
    by_cases h1 : link_fromnode (raster_link_list R C) p.2 = n <;>
      by_cases h2 : link_tonode (raster_link_list R C) p.2 = n <;>
      simp [h1, h2, hcell]
  rw [List.map_congr_left hterm,
    sum_map_sub_div _
      (fun p : ℕ × ℕ => if link_fromnode (raster_link_list R C) p.2 = n then
        flux.getD p.1 0 * dx else 0)
      (fun p : ℕ × ℕ => if link_tonode (raster_link_list R C) p.2 = n then
        flux.getD p.1 0 * dx else 0)
      (dx * dx)]
  rw [zero_add]

theorem slow_flux_div_cellless_zero (R C : ℕ) (dx : ℚ) (node_status : ℕ → ℕ)
    (flux : List ℚ) (n : ℕ) (hn : n < R * C)
    (hcell : node_activecell R C n = none) :
    (RasterModelGrid.calculate_flux_divergence_at_nodes_slow R C dx node_status
      flux).getD n 0 = 0 := by
  rw [RasterModelGrid.calculate_flux_divergence_at_nodes_slow,
    flux_div_slow_aux_getD R C dx _ flux _ 0 _ n
      (by rw [List.length_replicate]; exact hn),
    getD_replicate_zero]
  simp [hcell]

/-- C4 (amended): the explicit per-link accumulation form of flux divergence
at nodes (`RasterModelGrid.calculate_flux_divergence_at_nodes_slow`,
model_grid.py lines 2165-2231, whose guard `from_cell != BAD_INDEX_VALUE`
matches the base-class `ModelGrid.calculate_flux_divergence_at_nodes` at
lines 411-466) returns zero at every node that has no associated cell, for
every grid state and every flux array; the vectorized raster override
(lines 2096-2163) instead computes values at such nodes (see the
counterexample). -/
theorem C4_loop_flux_divergence_zero_without_cell (R C : ℕ) (dx : ℚ)
    (node_status : ℕ → ℕ) (flux : List ℚ) (n : ℕ) (hn : n < R * C)
    (hcell : node_activecell R C n = none) :
    (RasterModelGrid.calculate_flux_divergence_at_nodes_slow R C dx node_status
      flux).getD n 0 = 0 :=
  slow_flux_div_cellless_zero R C dx node_status flux n hn hcell

/-- Witness for the amended C4: boundary node 1 of the default 4×5 grid with
the doctest flux array. -/
theorem C4_loop_flux_divergence_zero_without_cell_witness :
    ((1 : ℕ) < 4 * 5 ∧ node_activecell 4 5 1 = none) ∧
    (RasterModelGrid.calculate_flux_divergence_at_nodes_slow 4 5 1
      (default_node_status 4 5)
      [-1, -1, 1, 1, 1, 1, 1, 0, -1, -1, -1, 1, -1, -1, -1, 1, -1]).getD 1 0 = 0 :=
  ⟨⟨by decide, by decide⟩,
   C4_loop_flux_divergence_zero_without_cell 4 5 1 (default_node_status 4 5)
     [-1, -1, 1, 1, 1, 1, 1, 0, -1, -1, -1, 1, -1, -1, -1, 1, -1] 1
     (by decide) (by decide)⟩

theorem fast_flux_div_node1_value :
    (RasterModelGrid.calculate_flux_divergence_at_nodes 4 5 1 (default_node_status 4 5)
      [-1, -1, 1, 1, 1, 1, 1, 0, -1, -1, -1, 1, -1, -1, -1, 1, -1]).getD 1 0 = -1 := by
  have hout0 : node_active_outlink_matrix (default_node_status 4 5)
      (raster_link_list 4 5) 0 1 = Int.ofNat 0 := by decide
  have hout1 : node_active_outlink_matrix (default_node_status 4 5)
      (raster_link_list 4 5) 1 1 = -1 := by decide
  have hin0 : node_active_inlink_matrix (default_node_status 4 5)
      (raster_link_list 4 5) 0 1 = -1 := by decide
  have hin1 : node_active_inlink_matrix (default_node_status 4 5)
      (raster_link_list 4 5) 1 1 = -1 := by decide
  rw [RasterModelGrid.calculate_flux_divergence_at_nodes,
    getD_map_lt _ (List.range (4 * 5)) 1 0 0 (by norm_num),
    getD_range (4 * 5) 1 (by norm_num), hout0, hout1, hin0, hin1,
    pyget_ofNat _ 1 0 (by norm_num), pyget_neg_one]
  norm_num [List.getD_cons_zero]

/-- C2 counterexample: on the default fully-open 4×5 grid with dx = 1 and
the doctest flux array (minus the gradient of the doctest field u), the
vectorized gather form gives −1 at boundary node 1 while the explicit
per-link accumulation form gives 0 there, so the two implementations do
not return identical result arrays at every node (compare the doctests at
model_grid.py lines 2121-2124 and 2192-2195). -/
theorem C2_flux_divergence_forms_differ_at_boundary :
    (RasterModelGrid.calculate_flux_divergence_at_nodes 4 5 1 (default_node_status 4 5)
        [-1, -1, 1, 1, 1, 1, 1, 0, -1, -1, -1, 1, -1, -1, -1, 1, -1]).getD 1 0 ≠
      (RasterModelGrid.calculate_flux_divergence_at_nodes_slow 4 5 1
        (default_node_status 4 5)
        [-1, -1, 1, 1, 1, 1, 1, 0, -1, -1, -1, 1, -1, -1, -1, 1, -1]).getD 1 0 := by
  rw [fast_flux_div_node1_value,
    slow_flux_div_cellless_zero 4 5 1 (default_node_status 4 5)
      [-1, -1, 1, 1, 1, 1, 1, 0, -1, -1, -1, 1, -1, -1, -1, 1, -1] 1
      (by decide) (by decide)]
  norm_num

/-- Witness for the amended C2 at interior node 6 of the default 4×5 grid
with the doctest flux array (node 6 has cell 0). -/
theorem C2_flux_divergence_forms_agree_at_cell_nodes_witness :
    (([-1, -1, 1, 1, 1, 1, 1, 0, -1, -1, -1, 1, -1, -1, -1, 1, -1] :
        List ℚ).length =
      (reset_list_of_active_links (default_node_status 4 5)
        (raster_link_list 4 5)).length ∧
      (6 : ℕ) < 4 * 5 ∧ (node_activecell 4 5 6).isSome) ∧
    (RasterModelGrid.calculate_flux_divergence_at_nodes 4 5 1 (default_node_status 4 5)
        [-1, -1, 1, 1, 1, 1, 1, 0, -1, -1, -1, 1, -1, -1, -1, 1, -1]).getD 6 0 =
      (RasterModelGrid.calculate_flux_divergence_at_nodes_slow 4 5 1
        (default_node_status 4 5)
        [-1, -1, 1, 1, 1, 1, 1, 0, -1, -1, -1, 1, -1, -1, -1, 1, -1]).getD 6 0 :=
  ⟨⟨by decide, by decide, by decide⟩,
   C2_flux_divergence_forms_agree_at_cell_nodes 4 5 1 (default_node_status 4 5)
     [-1, -1, 1, 1, 1, 1, 1, 0, -1, -1, -1, 1, -1, -1, -1, 1, -1] 6
     (by decide) (by decide) (by decide)⟩

/-- C4 counterexample: the vectorized node-granularity flux-divergence
operator of the raster grid does not report zero at nodes without an
associated cell: at boundary node 1 of the default 4×5 grid (which has no
cell) it returns −1 for the doctest flux array. -/
theorem C4_fast_flux_divergence_nonzero_without_cell :
    node_activecell 4 5 1 = none ∧
    (RasterModelGrid.calculate_flux_divergence_at_nodes 4 5 1 (default_node_status 4 5)
      [-1, -1, 1, 1, 1, 1, 1, 0, -1, -1, -1, 1, -1, -1, -1, 1, -1]).getD 1 0 ≠ 0 := by
  refine ⟨by decide, ?_⟩
  rw [fast_flux_div_node1_value]
  norm_num
